import Mathlib

/-!
Verification of the arxi-data ingestion pipeline.

This file gives a shallow embedding of the data-loading core of the
repository (src/services/data_loader.py and src/utils/data_utils.py) and
proves properties of it.

Modelling conventions:
* JSON values decoded by the streaming reader are modelled by the inductive
  type `JValue`; Python `None` (the result of `dict.get` on a missing key,
  and the decoding of JSON `null`) is modelled by `JValue.null`.
* A decoded record (one item of a top-level JSON array) is an association
  list from string keys to `JValue`s, looked up by `recGet`.
* Python floats are modelled by `PyFloatVal`: NaN, a signed infinity, or
  a finite value kept as an exact rational (finite magnitudes are exact,
  not rounded to binary64). The string branch of `float(...)` coercion,
  `pyStrToFloat`, follows the CPython grammar: surrounding ASCII
  whitespace, an optional sign, `inf`/`infinity`/`nan` case-insensitively,
  or decimal digits (single underscores allowed between digits) with an
  optional fraction and exponent. The rational-valued aggregate store uses
  `validate_numeric`, the finite projection of the faithful
  `validate_numeric_float`.
* Python dictionaries of the aggregation store are modelled as total
  functions: lookup tables as `JValue → Option _`, the `defaultdict(float)`
  aggregates as total functions into `ℚ` defaulting to 0, the
  `defaultdict(set)` aggregate as a membership predicate.
* Exceptions are modelled by explicit error values threaded next to the
  store, so that mutations performed before a raise persist, exactly as in
  the Python object being mutated in place.
-/

/-- A decoded JSON value, as produced by the streaming record reader.
`null` also stands for Python `None`. -/
inductive JValue where
  | null
  | bool (b : Bool)
  | num (q : ℚ)
  | str (s : String)
  | list (xs : List JValue)
  | obj (fields : List (String × JValue))
deriving Repr

mutual

/-- Boolean structural equality on `JValue`s. -/
def JValue.beq : JValue → JValue → Bool
  | .null, .null => true
  | .bool a, .bool b => decide (a = b)
  | .num a, .num b => decide (a = b)
  | .str a, .str b => decide (a = b)
  | .list xs, .list ys => beqL xs ys
  | .obj xs, .obj ys => beqF xs ys
  | _, _ => false

/-- Boolean equality on lists of `JValue`s. -/
def beqL : List JValue → List JValue → Bool
  | [], [] => true
  | x :: xs, y :: ys => JValue.beq x y && beqL xs ys
  | _, _ => false

/-- Boolean equality on association lists of `JValue`s. -/
def beqF : List (String × JValue) → List (String × JValue) → Bool
  | [], [] => true
  | (k, v) :: xs, (k2, v2) :: ys => decide (k = k2) && JValue.beq v v2 && beqF xs ys
  | _, _ => false

end

theorem JValue.sizeOf_pos (a : JValue) : 0 < sizeOf a := by
  cases a <;> simp

theorem beqL_iff (xs ys : List JValue)
    (ih : ∀ x ∈ xs, ∀ b, JValue.beq x b = true ↔ x = b) :
    beqL xs ys = true ↔ xs = ys := by
  induction xs generalizing ys with
  | nil => cases ys <;> simp [beqL]
  | cons x xs ihx =>
    cases ys with
    | nil => simp [beqL]
    | cons y ys =>
      have h1 := ih x (List.mem_cons_self x xs) y
      have h2 := ihx ys (fun z hz b => ih z (List.mem_cons_of_mem _ hz) b)
      simp [beqL, h1, h2]

theorem beqF_iff (xs ys : List (String × JValue))
    (ih : ∀ p ∈ xs, ∀ b, JValue.beq p.2 b = true ↔ p.2 = b) :
    beqF xs ys = true ↔ xs = ys := by
  induction xs generalizing ys with
  | nil => cases ys <;> simp [beqF]
  | cons x xs ihx =>
    cases ys with
    | nil => simp [beqF]
    | cons y ys =>
      obtain ⟨k, v⟩ := x
      obtain ⟨k2, v2⟩ := y
      have h1 := ih ⟨k, v⟩ (List.mem_cons_self _ xs) v2
      have h2 := ihx ys (fun z hz b => ih z (List.mem_cons_of_mem _ hz) b)
      simp only [beqF, Bool.and_eq_true, decide_eq_true_eq, List.cons.injEq,
        Prod.mk.injEq] at *
      constructor
      · rintro ⟨⟨hk, hv⟩, hrest⟩
        exact ⟨⟨hk, h1.mp hv⟩, h2.mp hrest⟩
      · rintro ⟨⟨hk, hv⟩, hrest⟩
        exact ⟨⟨hk, h1.mpr hv⟩, h2.mpr hrest⟩

theorem JValue.beq_iff_aux : ∀ (n : ℕ) (a b : JValue), sizeOf a ≤ n →
    (JValue.beq a b = true ↔ a = b) := by
  intro n
  induction n with
  | zero =>
    intro a b ha
    have := JValue.sizeOf_pos a
    omega
  | succ n ih =>
    intro a b ha
    cases a with
    | null => cases b <;> simp [JValue.beq]
    | bool x => cases b <;> simp [JValue.beq]
    | num x => cases b <;> simp [JValue.beq]
    | str x => cases b <;> simp [JValue.beq]
    | list xs =>
      cases b <;> simp only [JValue.beq, Bool.false_eq_true, false_iff] <;>
        try exact fun h => JValue.noConfusion h
      case list ys =>
        have hxs : sizeOf xs ≤ n := by
          have := ha
          simp only [JValue.list.sizeOf_spec] at this
          omega
        rw [beqL_iff xs ys (fun x hx b =>
          ih x b (Nat.le_trans (Nat.le_of_lt (List.sizeOf_lt_of_mem hx)) hxs))]
        simp
    | obj xs =>
      cases b <;> simp only [JValue.beq, Bool.false_eq_true, false_iff] <;>
        try exact fun h => JValue.noConfusion h
      case obj ys =>
        have hxs : sizeOf xs ≤ n := by
          have := ha
          simp only [JValue.obj.sizeOf_spec] at this
          omega
        refine Iff.trans (beqF_iff xs ys (fun p hp b => ih p.2 b ?_)) (by simp)
        have h2 : sizeOf p < sizeOf xs := List.sizeOf_lt_of_mem hp
        have h1 : sizeOf p.2 < sizeOf p := by
          obtain ⟨k, v⟩ := p
          simp
        omega

theorem JValue.beq_iff (a b : JValue) : JValue.beq a b = true ↔ a = b :=
  JValue.beq_iff_aux (sizeOf a) a b le_rfl

instance : DecidableEq JValue := fun a b => decidable_of_iff _ (JValue.beq_iff a b)

/-- A decoded record: one item of a top-level JSON array, a mapping from
string keys to JSON values. -/
abbrev Record := List (String × JValue)

/-- Lookup of a key in a record, modelling Python dictionary subscripting:
`none` models a `KeyError` situation (key absent). -/
def recGet (r : Record) (k : String) : Option JValue :=
  match r with
  | [] => none
  | (k2, v) :: rest => if k2 = k then some v else recGet rest k

/-- Lookup with a default, modelling Python `dict.get(key, default)`. -/
def pyGet (r : Record) (k : String) (d : JValue) : JValue :=
  (recGet r k).getD d

/-- Python truthiness of a decoded JSON value (`bool(v)` in Python):
`None`, `False`, zero, the empty string, the empty list and the empty
object are falsy; everything else is truthy. -/
def truthy : JValue → Bool
  | .null => false
  | .bool b => b
  | .num q => decide (q ≠ 0)
  | .str s => decide (s ≠ "")
  | .list xs => decide (xs ≠ [])
  | .obj fs => decide (fs ≠ [])

/-- Model of Python `str.startswith(p)` on decoded strings: the prefix
test on the character lists (Lean's own `String.startsWith` is not
kernel-reducible). -/
def strStartsWith (s p : String) : Bool :=
  p.data.isPrefixOf s.data

/-- Embedding of `extract_id` from src/utils/data_utils.py: if the field is
a list with at least one element, return its first element, otherwise
return `None` (modelled by `JValue.null`). -/
def extract_id (id_field : JValue) : JValue :=
  match id_field with
  | .list (x :: _) => x
  | _ => .null

/-- A Python float value: NaN, a signed infinity (`neg` true for the
negative one), or a finite value kept as an exact rational. -/
inductive PyFloatVal where
  | finite (q : ℚ)
  | inf (neg : Bool)
  | nan
deriving DecidableEq, Repr

/-- IEEE-style strict greater-than on Python float values: every
comparison against NaN is false. -/
def PyFloatVal.gt : PyFloatVal → PyFloatVal → Bool
  | .nan, _ => false
  | _, .nan => false
  | .inf n1, .inf n2 => (¬ n1) && n2
  | .inf n1, .finite _ => ¬ n1
  | .finite _, .inf n2 => n2
  | .finite a, .finite b => decide (b < a)

/-- Negation of a Python float value (the sign of NaN is unobservable
here, as in the source's uses). -/
def PyFloatVal.neg : PyFloatVal → PyFloatVal
  | .finite q => .finite (-q)
  | .inf b => .inf (¬ b)
  | .nan => .nan

/-- Whether a Python float value is non-negative: NaN is not. -/
def PyFloatVal.isNonNegative : PyFloatVal → Bool
  | .finite q => decide (0 ≤ q)
  | .inf n => ¬ n
  | .nan => false

/-- Model of Python `max(a, b)` on two floats: the second argument wins
only when it compares strictly greater, so `max(nan, x)` is NaN while
`max(x, nan)` is `x`. -/
def pyMax (a b : PyFloatVal) : PyFloatVal :=
  if PyFloatVal.gt b a then b else a

/-- ASCII whitespace stripped by Python `float(string)`. -/
def wsChar (c : Char) : Bool :=
  c == ' ' || c == '\t' || c == '\n' || c == '\r' || c == '\x0b' || c == '\x0c'

/-- Both-ends whitespace strip. -/
def stripWs (cs : List Char) : List Char :=
  ((cs.dropWhile wsChar).reverse.dropWhile wsChar).reverse

/-- Accumulator loop for `digitPart`: after a first digit, further digits
with single underscores strictly between digits; yields the value and the
digit count. -/
def digitPartAux : ℕ → ℕ → List Char → Option (ℕ × ℕ)
  | acc, count, [] => some (acc, count)
  | acc, count, '_' :: c :: rest =>
    if c.isDigit then digitPartAux (acc * 10 + (c.toNat - 48)) (count + 1) rest
    else none
  | _, _, ['_'] => none
  | acc, count, c :: rest =>
    if c.isDigit then digitPartAux (acc * 10 + (c.toNat - 48)) (count + 1) rest
    else none

/-- A Python `digitpart`: at least one ASCII digit, single underscores
allowed only between digits; yields the value and the digit count (the
count drives the fraction scale). -/
def digitPart (cs : List Char) : Option (ℕ × ℕ) :=
  match cs with
  | c :: rest => if c.isDigit then digitPartAux (c.toNat - 48) 1 rest else none
  | [] => none

/-- Value of a float mantissa: an integer part, a fraction part, or both
around a single dot, with at least one digit overall. -/
def mantissaVal (cs : List Char) : Option ℚ :=
  match cs.splitOn '.' with
  | [intp] => (digitPart intp).map (fun p => (p.1 : ℚ))
  | [[], []] => none
  | [intp, []] => (digitPart intp).map (fun p => (p.1 : ℚ))
  | [[], frac] =>
    (digitPart frac).map (fun p => (p.1 : ℚ) / (10 : ℚ) ^ p.2)
  | [intp, frac] =>
    match digitPart intp, digitPart frac with
    | some pi2, some pf => some ((pi2.1 : ℚ) + (pf.1 : ℚ) / (10 : ℚ) ^ pf.2)
    | _, _ => none
  | _ => none

/-- Value of a float exponent: an optional sign and a digitpart. -/
def expVal : List Char → Option ℤ
  | '-' :: rest => (digitPart rest).map (fun p => -(p.1 : ℤ))
  | '+' :: rest => (digitPart rest).map (fun p => (p.1 : ℤ))
  | cs => (digitPart cs).map (fun p => (p.1 : ℤ))

/-- Value of the numeric body of a float string: a mantissa followed by an
optional `e`/`E` exponent, evaluated exactly. -/
def numericBody (cs : List Char) : Option ℚ :=
  let mant := cs.takeWhile (fun c => ¬ (c == 'e' || c == 'E'))
  let rest := cs.dropWhile (fun c => ¬ (c == 'e' || c == 'E'))
  match rest with
  | [] => mantissaVal mant
  | _ :: ex =>
    match mantissaVal mant, expVal ex with
    | some m, some e => some (m * (10 : ℚ) ^ e)
    | _, _ => none

/-- Unsigned body of a float string: `inf`, `infinity` and `nan`
case-insensitively, or a numeric body. -/
def pyFloatBody (body : List Char) : Option PyFloatVal :=
  let lower := body.map Char.toLower
  if lower = ['i', 'n', 'f'] ∨ lower = ['i', 'n', 'f', 'i', 'n', 'i', 't', 'y'] then
    some (.inf false)
  else if lower = ['n', 'a', 'n'] then some .nan
  else (numericBody body).map PyFloatVal.finite

/-- Model of Python `float(string)`: strip surrounding whitespace, read an
optional sign, then the body; `none` models the `ValueError` of an
unparseable string. -/
def pyStrToFloat (s : String) : Option PyFloatVal :=
  match stripWs s.data with
  | [] => none
  | '-' :: rest => (pyFloatBody rest).map PyFloatVal.neg
  | '+' :: rest => pyFloatBody rest
  | cs => pyFloatBody cs

/-- Model of Python `float(value)` coercion on decoded JSON values:
numbers coerce to themselves, booleans to 0 or 1, strings through
`pyStrToFloat`; `None`, lists and objects raise `TypeError`, modelled by
`none` (`validate_numeric` catches that error). -/
def pyFloat : JValue → Option PyFloatVal
  | .num q => some (.finite q)
  | .bool b => some (.finite (if b then 1 else 0))
  | .str s => pyStrToFloat s
  | .null => none
  | .list _ => none
  | .obj _ => none

/-- Embedding of `validate_numeric` from src/utils/data_utils.py over the
Python float model: `max(float(value), 0.0)` under Python `max` semantics
(so a NaN input propagates as NaN); on `TypeError` or `ValueError` log and
return the caller-supplied default. -/
def validate_numeric_float (value : JValue) (default : PyFloatVal) : PyFloatVal :=
  match pyFloat value with
  | some f => pyMax f (.finite 0)
  | none => default

/-- Finite projection of `validate_numeric_float` feeding the
rational-valued aggregate store: the two non-finite outcomes (NaN from a
`"nan"` quantity, +inf from an `"inf"` quantity), which no exact rational
represents, project to 0; the sales aggregation claims use this function
only relationally. -/
def validate_numeric (value : JValue) (default : ℚ) : ℚ :=
  match validate_numeric_float value (.finite default) with
  | .finite q => q
  | _ => 0

/-- Entry of the derived category index: name plus the derived parent
(`some "No Parent"` or Python `None`). -/
structure CategoryIndexEntry where
  name : JValue
  parent : Option String
deriving DecidableEq, Repr

/-- Entry of the product to category map: raw category id (possibly
`None`, modelled as `Option`) and category name. -/
structure ProductCategoryEntry where
  id : Option JValue
  name : JValue
deriving DecidableEq, Repr

/-- Entry of the contact to country map: country code and country name. -/
structure CountryEntry where
  code : JValue
  name : JValue
deriving DecidableEq, Repr

/-- The aggregation store, the fields initialized by `DataLoader.__init__`
in src/services/data_loader.py. Plain dictionaries are modelled as
`Option`-valued lookups; `defaultdict(float)` aggregates as total maps
into `ℚ`; the `defaultdict(set)` aggregate `client_products` as a
membership predicate. -/
structure Store where
  categories : JValue → Option Record
  products : JValue → Option Record
  contacts : JValue → Option Record
  category_index : JValue → Option CategoryIndexEntry
  product_category_map : JValue → Option ProductCategoryEntry
  category_sales : JValue → ℚ
  category_product_sales : JValue → JValue → ℚ
  country_product_sales : JValue → JValue → ℚ
  client_products : JValue → JValue → Bool
  contact_country_map : JValue → Option CountryEntry
  country_code_map : JValue → Option JValue

/-- Embedding of `DataLoader.__init__`: the freshly constructed, empty
store. -/
def emptyStore : Store where
  categories := fun _ => none
  products := fun _ => none
  contacts := fun _ => none
  category_index := fun _ => none
  product_category_map := fun _ => none
  category_sales := fun _ => 0
  category_product_sales := fun _ _ => 0
  country_product_sales := fun _ _ => 0
  client_products := fun _ _ => false
  contact_country_map := fun _ => none
  country_code_map := fun _ => none

/-- Dictionary update `m[k] = v`. -/
def upd {V : Type} (m : JValue → Option V) (k : JValue) (v : V) :
    JValue → Option V :=
  fun k2 => if k2 = k then some v else m k2

/-- Aggregate update `m[k] += q` on a `defaultdict(float)`. -/
def bump (m : JValue → ℚ) (k : JValue) (q : ℚ) : JValue → ℚ :=
  fun k2 => if k2 = k then m k + q else m k2

/-- Nested aggregate update `m[k1][k2] += q`. -/
def bump2 (m : JValue → JValue → ℚ) (k1 k2 : JValue) (q : ℚ) :
    JValue → JValue → ℚ :=
  fun a b => if a = k1 ∧ b = k2 then m k1 k2 + q else m a b

/-- Set-membership update `m[k].add(v)` on a `defaultdict(set)`. -/
def addMem (m : JValue → JValue → Bool) (k v : JValue) :
    JValue → JValue → Bool :=
  fun a b => if a = k ∧ b = v then true else m a b

/-- A per-record Python exception: a `KeyError` from dictionary
subscripting on a missing key, or the `AttributeError` raised by calling
`.startswith` on a non-string. -/
inductive PyErr where
  | keyError (k : String)
  | attributeError
deriving DecidableEq, Repr

/-- Embedding of `CategoryLoadStrategy._process_category`: derive the
parent name (`"No Parent"` exactly when the raw `parent_id` is the boolean
`true`), then store the raw category and the derived index entry. A
missing `id` or `name` key raises `KeyError`; mutations made before the
raise persist. -/
def CategoryLoadStrategy._process_category (category : Record) (dl : Store) :
    Store × Option PyErr :=
  let parent_info := recGet category "parent_id"
  let parent_name : Option String :=
    if parent_info = some (.bool true) then some "No Parent" else none
  match recGet category "id" with
  | none => (dl, some (.keyError "id"))
  | some cid =>
    let dl1 : Store := { dl with categories := upd dl.categories cid category }
    match recGet category "name" with
    | none => (dl1, some (.keyError "name"))
    | some cname =>
      ({ dl1 with
          category_index := upd dl1.category_index cid ⟨cname, parent_name⟩ },
        none)

/-- Embedding of `ProductLoadStrategy._process_product`: store the raw
product; when `categ_id` is list-shaped, derive the product to category
map entry, defaulting the name to `"Unnamed Category"` when the list has
fewer than two elements. -/
def ProductLoadStrategy._process_product (product : Record) (dl : Store) :
    Store × Option PyErr :=
  match recGet product "id" with
  | none => (dl, some (.keyError "id"))
  | some pid =>
    let dl1 : Store := { dl with products := upd dl.products pid product }
    match recGet product "categ_id" with
    | some (.list xs) =>
      ({ dl1 with
          product_category_map := upd dl1.product_category_map pid
            ⟨xs.get? 0, (xs.get? 1).getD (.str "Unnamed Category")⟩ },
        none)
    | _ => (dl1, none)

/-- Embedding of `ContactLoadStrategy._process_contact`: store the raw
contact; when `country_id` is a list of at least two elements, record the
contact to country entry and, if the country name is not yet in the
country code map, record its code (a later conflicting code is only
logged, never stored). -/
def ContactLoadStrategy._process_contact (contact : Record) (dl : Store) :
    Store × Option PyErr :=
  match recGet contact "id" with
  | none => (dl, some (.keyError "id"))
  | some contact_id =>
    let dl1 : Store := { dl with contacts := upd dl.contacts contact_id contact }
    match recGet contact "country_id" with
    | some (.list (country_code :: country_name :: _)) =>
      let dl2 : Store := { dl1 with
        contact_country_map := upd dl1.contact_country_map contact_id
          ⟨country_code, country_name⟩ }
      match dl2.country_code_map country_name with
      | some _ => (dl2, none)
      | none =>
        ({ dl2 with
            country_code_map := upd dl2.country_code_map country_name
              country_code },
          none)
    | _ => (dl1, none)

/-- Embedding of `SalesLoadStrategy._process_sale`: skip the record unless
`create_date` starts with `"2024"` (raising `AttributeError` when the
gotten value is not a string); skip when the extracted product id is falsy;
otherwise add the validated quantity to the category aggregates (when the
category id resolves to a truthy value), unconditionally to the country
aggregate, and record the product for a truthy customer id. The returned
boolean is the processed flag counted by the caller. -/
def SalesLoadStrategy._process_sale (sale : Record) (dl : Store) :
    Store × Except PyErr Bool :=
  match pyGet sale "create_date" (.str "") with
  | .str cd =>
    if ¬ strStartsWith cd "2024" then (dl, .ok false)
    else
      let product_id := extract_id (pyGet sale "product_id" .null)
      let customer_id := extract_id (pyGet sale "order_partner_id" .null)
      if ¬ truthy product_id then (dl, .ok false)
      else
        let quantity := validate_numeric (pyGet sale "product_uom_qty" (.num 0)) 0
        let country_name : JValue :=
          match dl.contact_country_map customer_id with
          | some e => e.name
          | none => .str "Unknown"
        let category_id : Option JValue :=
          match dl.product_category_map product_id with
          | some e => e.id
          | none => none
        let dl1 : Store :=
          match category_id with
          | some cid =>
            if truthy cid then
              { dl with
                category_sales := bump dl.category_sales cid quantity
                category_product_sales :=
                  bump2 dl.category_product_sales cid product_id quantity }
            else dl
          | none => dl
        let dl2 : Store := { dl1 with
          country_product_sales :=
            bump2 dl1.country_product_sales country_name product_id quantity }
        let dl3 : Store :=
          if truthy customer_id then
            { dl2 with
              client_products := addMem dl2.client_products customer_id product_id }
          else dl2
        (dl3, .ok true)
  | _ => (dl, .error .attributeError)

/-- A stream-level failure of the record reader: an unreadable file or a
byte stream that is not a valid JSON array. -/
inductive StreamErr where
  | ioError
  | malformedData
deriving DecidableEq, Repr

/-- Cause recorded inside a wrapped stage error: a stream-level failure or
a propagated per-record exception. -/
inductive Cause where
  | stream (e : StreamErr)
  | record (e : PyErr)
deriving DecidableEq, Repr

/-- Embedding of `DataLoaderException` from src/services/exceptions.py:
the stage whose message prefix it carries, the wrapped cause, and the
HTTP status code (the strategies always pass 500). -/
structure DataLoaderException where
  stage : String
  cause : Cause
  status_code : ℕ
deriving DecidableEq, Repr

/-- An exception escaping a stage: either a raw Python exception or a
typed `DataLoaderException`. The strategies in the source wrap every
exception, so `raw` is never produced by the embedded loads; it is in the
type so that wrapped and unwrapped propagation are distinguishable. -/
inductive Exc where
  | raw (e : PyErr)
  | wrapped (d : DataLoaderException)
deriving DecidableEq, Repr

/-- The content of one of the four input files, as delivered by the
streaming record reader: either a stream-level failure or the finite
sequence of decoded records. -/
abbrev FileStream := Except StreamErr (List Record)

/-- Run a per-record transform over a list of records, stopping at the
first raised per-record exception; mutations made before the raise
persist. -/
def runRecords (step : Record → Store → Store × Option PyErr) :
    List Record → Store → Store × Option PyErr
  | [], dl => (dl, none)
  | r :: rest, dl =>
    match step r dl with
    | (dl1, none) => runRecords step rest dl1
    | (dl1, some e) => (dl1, some e)

/-- Run `_process_sale` over a list of sale records, stopping at the first
raised per-record exception (the processed count is only logged and is not
modelled). -/
def runSales : List Record → Store → Store × Option PyErr
  | [], dl => (dl, none)
  | r :: rest, dl =>
    match SalesLoadStrategy._process_sale r dl with
    | (dl1, .ok _) => runSales rest dl1
    | (dl1, .error e) => (dl1, some e)

/-- Embedding of `CategoryLoadStrategy.load`: stream categories.json and
process each record; any exception in the stage body is caught and wrapped
into a `DataLoaderException` with status 500. -/
def CategoryLoadStrategy.load (file : FileStream) (dl : Store) :
    Store × Option Exc :=
  match file with
  | .error e => (dl, some (.wrapped ⟨"Category loading failed", .stream e, 500⟩))
  | .ok recs =>
    match runRecords CategoryLoadStrategy._process_category recs dl with
    | (dl1, none) => (dl1, none)
    | (dl1, some e) =>
      (dl1, some (.wrapped ⟨"Category loading failed", .record e, 500⟩))

/-- Embedding of `ProductLoadStrategy.load`: stream products.json and
process each record; any exception in the stage body is caught and wrapped
into a `DataLoaderException` with status 500. -/
def ProductLoadStrategy.load (file : FileStream) (dl : Store) :
    Store × Option Exc :=
  match file with
  | .error e => (dl, some (.wrapped ⟨"Product loading failed", .stream e, 500⟩))
  | .ok recs =>
    match runRecords ProductLoadStrategy._process_product recs dl with
    | (dl1, none) => (dl1, none)
    | (dl1, some e) =>
      (dl1, some (.wrapped ⟨"Product loading failed", .record e, 500⟩))

/-- Embedding of `ContactLoadStrategy.load`: stream contacts.json and
process each record; any exception in the stage body is caught and wrapped
into a `DataLoaderException` with status 500. -/
def ContactLoadStrategy.load (file : FileStream) (dl : Store) :
    Store × Option Exc :=
  match file with
  | .error e => (dl, some (.wrapped ⟨"Contact loading failed", .stream e, 500⟩))
  | .ok recs =>
    match runRecords ContactLoadStrategy._process_contact recs dl with
    | (dl1, none) => (dl1, none)
    | (dl1, some e) =>
      (dl1, some (.wrapped ⟨"Contact loading failed", .record e, 500⟩))

/-- Embedding of `SalesLoadStrategy.load`: stream sale_order_lines.json
and process each record; any exception in the stage body is caught and
wrapped into a `DataLoaderException` with status 500. -/
def SalesLoadStrategy.load (file : FileStream) (dl : Store) :
    Store × Option Exc :=
  match file with
  | .error e => (dl, some (.wrapped ⟨"Sales processing error", .stream e, 500⟩))
  | .ok recs =>
    match runSales recs dl with
    | (dl1, none) => (dl1, none)
    | (dl1, some e) =>
      (dl1, some (.wrapped ⟨"Sales processing error", .record e, 500⟩))

/-- The four input files consumed by a full load, each as delivered by the
streaming record reader. -/
structure Files where
  categories : FileStream
  products : FileStream
  contacts : FileStream
  sales : FileStream

/-- Embedding of `DataLoader.initialize_data`: run the four stage loads in
the fixed order categories, products, contacts, sales on the current store
(the store is not reset); the first stage error is logged and re-raised,
and no later stage runs. -/
def DataLoader.initialize_data (files : Files) (dl : Store) :
    Store × Option Exc :=
  match CategoryLoadStrategy.load files.categories dl with
  | (dl1, some e) => (dl1, some e)
  | (dl1, none) =>
    match ProductLoadStrategy.load files.products dl1 with
    | (dl2, some e) => (dl2, some e)
    | (dl2, none) =>
      match ContactLoadStrategy.load files.contacts dl2 with
      | (dl3, some e) => (dl3, some e)
      | (dl3, none) =>
        match SalesLoadStrategy.load files.sales dl3 with
        | (dl4, some e) => (dl4, some e)
        | (dl4, none) => (dl4, none)

/-- Left-biased alternative on options, the shape of dictionary writes:
a recorded value wins over the fallback. -/
def oalt {V : Type} (a b : Option V) : Option V :=
  match a with
  | some x => some x
  | none => b

theorem oalt_none_left {V : Type} (b : Option V) : oalt none b = b := rfl

theorem oalt_assoc {V : Type} (a b c : Option V) :
    oalt (oalt a b) c = oalt a (oalt b c) := by
  cases a <;> rfl

theorem oalt_self_absorb {V : Type} (a b : Option V) :
    oalt a (oalt a b) = oalt a b := by
  cases a <;> rfl

theorem oalt_absorb {V : Type} (a b : Option V) :
    oalt (oalt a b) b = oalt a b := by
  cases a <;> cases b <;> rfl

theorem upd_self {V : Type} (m : JValue → Option V) (k : JValue) (v : V) :
    upd m k v k = some v := by
  simp [upd]

theorem upd_other {V : Type} (m : JValue → Option V) (k : JValue) (v : V)
    (k2 : JValue) (h : k2 ≠ k) : upd m k v k2 = m k2 := by
  simp [upd, h]

theorem bump2_self (m : JValue → JValue → ℚ) (k1 k2 : JValue) (q : ℚ) :
    bump2 m k1 k2 q k1 k2 = m k1 k2 + q := by
  simp [bump2]

theorem bump2_other (m : JValue → JValue → ℚ) (k1 k2 : JValue) (q : ℚ)
    (a b : JValue) (h : ¬ (a = k1 ∧ b = k2)) : bump2 m k1 k2 q a b = m a b := by
  simp [bump2, h]

/-- Shape predicate taken from the specification sentence for the id
extractor: the two-element pair form with an id and a display name. -/
def isPairForm : JValue → Bool
  | .list [_, _] => true
  | _ => false

/-- Period filter condition of the sales stage: the value is a string
starting with the literal prefix "2024". -/
def passes2024 : JValue → Bool
  | .str s => strStartsWith s "2024"
  | _ => false

/-- Product id a sale record extracts. -/
def saleProductId (r : Record) : JValue :=
  extract_id (pyGet r "product_id" .null)

/-- Customer id a sale record extracts. -/
def saleCustomerId (r : Record) : JValue :=
  extract_id (pyGet r "order_partner_id" .null)

/-- Validated quantity of a sale record. -/
def saleQty (r : Record) : ℚ :=
  validate_numeric (pyGet r "product_uom_qty" (.num 0)) 0

/-- A sale record qualifies when it passes the period filter and its
extracted product id is truthy. -/
def saleQualifies (r : Record) : Bool :=
  passes2024 (pyGet r "create_date" (.str "")) && truthy (saleProductId r)

/-- Country name a sale record resolves to through the contact country
map, defaulting to "Unknown". -/
def saleCountry (ccm : JValue → Option CountryEntry) (r : Record) : JValue :=
  match ccm (saleCustomerId r) with
  | some e => e.name
  | none => .str "Unknown"

/-- Category id a sale record resolves to through the product category
map (possibly Python None, and absent when the product is unmapped). -/
def saleCatId (pcm : JValue → Option ProductCategoryEntry) (r : Record) :
    Option JValue :=
  match pcm (saleProductId r) with
  | some e => e.id
  | none => none


/-- Per-record exception of the sales transform: `AttributeError` exactly
when the gotten `create_date` value is not a string. -/
def saleStepErr (r : Record) : Option PyErr :=
  match pyGet r "create_date" (.str "") with
  | .str _ => none
  | _ => some .attributeError

/-- Mirror of the store mutation performed by a non-raising run of
`SalesLoadStrategy._process_sale`, written as a composition of the
aggregate updates; `process_sale_eq` proves it exact. -/
def saleEffect (r : Record) (s : Store) : Store :=
  if saleQualifies r then
    let s1 : Store :=
      match saleCatId s.product_category_map r with
      | some cid =>
        if truthy cid then
          { s with
            category_sales := bump s.category_sales cid (saleQty r)
            category_product_sales :=
              bump2 s.category_product_sales cid (saleProductId r) (saleQty r) }
        else s
      | none => s
    let s2 : Store := { s1 with
      country_product_sales :=
        bump2 s1.country_product_sales (saleCountry s.contact_country_map r)
          (saleProductId r) (saleQty r) }
    if truthy (saleCustomerId r) then
      { s2 with
        client_products := addMem s2.client_products (saleCustomerId r) (saleProductId r) }
    else s2
  else s

/-- The sales per-record transform equals its mirror: it raises exactly on
a non-string `create_date` (leaving the store untouched), and otherwise
applies `saleEffect` and reports whether the record qualified. -/
theorem process_sale_eq (r : Record) (s : Store) :
    SalesLoadStrategy._process_sale r s =
      match saleStepErr r with
      | some e => (s, .error e)
      | none => (saleEffect r s, .ok (saleQualifies r)) := by
  unfold SalesLoadStrategy._process_sale saleEffect saleStepErr saleQualifies
    saleCatId saleQty saleProductId saleCustomerId saleCountry passes2024
  cases hcd : pyGet r "create_date" (.str "") <;> simp
  case str cd =>
    by_cases hd : strStartsWith cd "2024" <;> simp [hd]
    by_cases hp : truthy (extract_id (pyGet r "product_id" JValue.null)) <;>
      simp [hp]
    rfl

/-- CategorySales cell after one sale record. -/
theorem saleEffect_category_sales (r : Record) (s : Store) (c : JValue) :
    (saleEffect r s).category_sales c =
      s.category_sales c +
        (if saleQualifies r = true ∧ saleCatId s.product_category_map r = some c ∧
            truthy c = true
          then saleQty r else 0) := by
  unfold saleEffect
  by_cases hq : saleQualifies r <;> simp [hq]
  by_cases hcu : truthy (saleCustomerId r) <;>
    cases hcat : saleCatId s.product_category_map r with
    | none => simp [hcu]
    | some cid =>
      by_cases ht : truthy cid
      · by_cases hc : c = cid
        · subst hc
          simp [hcu, ht, bump]
        · have hne : ¬ ((some cid : Option JValue) = some c ∧ truthy c = true) := by
            rintro ⟨h1, h2⟩
            exact hc (Option.some.inj h1).symm
          rw [if_neg hne]
          simp [hcu, ht, bump, hc]
      · have hne : ¬ ((some cid : Option JValue) = some c ∧ truthy c = true) := by
          rintro ⟨h1, h2⟩
          rw [← (Option.some.inj h1)] at h2
          exact ht h2
        rw [if_neg hne]
        simp [hcu, ht]

/-- CategoryProductSales cell after one sale record. -/
theorem saleEffect_category_product_sales (r : Record) (s : Store) (c p : JValue) :
    (saleEffect r s).category_product_sales c p =
      s.category_product_sales c p +
        (if saleQualifies r = true ∧ saleCatId s.product_category_map r = some c ∧
            truthy c = true ∧ saleProductId r = p
          then saleQty r else 0) := by
  unfold saleEffect
  by_cases hq : saleQualifies r <;> simp [hq]
  by_cases hcu : truthy (saleCustomerId r) <;>
    cases hcat : saleCatId s.product_category_map r with
    | none => simp [hcu]
    | some cid =>
      by_cases ht : truthy cid
      · by_cases hcp : c = cid ∧ saleProductId r = p
        · obtain ⟨hc, hp⟩ := hcp
          subst hc
          subst hp
          simp [hcu, ht, bump2]
        · have hne : ¬ ((some cid : Option JValue) = some c ∧ truthy c = true ∧
              saleProductId r = p) := by
            rintro ⟨h1, h2, h3⟩
            exact hcp ⟨(Option.some.inj h1).symm, h3⟩
          rw [if_neg hne]
          have hne2 : ¬ (c = cid ∧ p = saleProductId r) := by
            rintro ⟨h1, h2⟩
            exact hcp ⟨h1, h2.symm⟩
          simp [hcu, ht, bump2, hne2]
      · have hne : ¬ ((some cid : Option JValue) = some c ∧ truthy c = true ∧
            saleProductId r = p) := by
          rintro ⟨h1, h2, h3⟩
          rw [← (Option.some.inj h1)] at h2
          exact ht h2
        rw [if_neg hne]
        simp [hcu, ht]

/-- CountryProductSales cell after one sale record. -/
theorem saleEffect_country_product_sales (r : Record) (s : Store) (n p : JValue) :
    (saleEffect r s).country_product_sales n p =
      s.country_product_sales n p +
        (if saleQualifies r = true ∧ saleCountry s.contact_country_map r = n ∧
            saleProductId r = p
          then saleQty r else 0) := by
  unfold saleEffect
  by_cases hq : saleQualifies r <;> simp [hq]
  have hs1 : ∀ s1 : Store, s1.country_product_sales = s.country_product_sales →
      ∀ b : Bool, True := fun _ _ _ => trivial
  by_cases hcu : truthy (saleCustomerId r) <;>
    cases hcat : saleCatId s.product_category_map r with
    | none =>
      by_cases hnp : n = saleCountry s.contact_country_map r ∧ p = saleProductId r
      · obtain ⟨h1, h2⟩ := hnp
        subst h1
        subst h2
        simp [hcu, bump2]
      · simp [hcu, bump2, hnp]
        try (rintro h1 h2; exact absurd ⟨h1.symm, h2.symm⟩ hnp)
    | some cid =>
      by_cases ht : truthy cid <;>
        by_cases hnp : n = saleCountry s.contact_country_map r ∧ p = saleProductId r
      · obtain ⟨h1, h2⟩ := hnp
        subst h1
        subst h2
        simp [hcu, ht, bump2]
      · simp [hcu, ht, bump2, hnp]
        try (rintro h1 h2; exact absurd ⟨h1.symm, h2.symm⟩ hnp)
      · obtain ⟨h1, h2⟩ := hnp
        subst h1
        subst h2
        simp [hcu, ht, bump2]
      · simp [hcu, ht, bump2, hnp]
        try (rintro h1 h2; exact absurd ⟨h1.symm, h2.symm⟩ hnp)

/-- ClientProducts membership after one sale record. -/
theorem saleEffect_client_products (r : Record) (s : Store) (k p : JValue) :
    (saleEffect r s).client_products k p =
      (s.client_products k p ||
        (saleQualifies r && truthy (saleCustomerId r) &&
          decide (saleCustomerId r = k) && decide (saleProductId r = p))) := by
  unfold saleEffect
  by_cases hq : saleQualifies r <;> simp [hq]
  by_cases hcu : truthy (saleCustomerId r) <;>
    cases hcat : saleCatId s.product_category_map r with
    | none =>
      by_cases hkp : k = saleCustomerId r ∧ p = saleProductId r
      · obtain ⟨h1, h2⟩ := hkp
        subst h1
        subst h2
        simp [hcu, addMem]
      · simp [hcu, addMem, hkp]
        try (rintro h1 h2; exact absurd ⟨h1.symm, h2.symm⟩ hkp)
    | some cid =>
      by_cases ht : truthy cid <;>
        by_cases hkp : k = saleCustomerId r ∧ p = saleProductId r
      · obtain ⟨h1, h2⟩ := hkp
        subst h1
        subst h2
        simp [hcu, ht, addMem]
      · simp [hcu, ht, addMem, hkp]
        try (rintro h1 h2; exact absurd ⟨h1.symm, h2.symm⟩ hkp)
      · obtain ⟨h1, h2⟩ := hkp
        subst h1
        subst h2
        simp [hcu, ht, addMem]
      · simp [hcu, ht, addMem, hkp]
        try (rintro h1 h2; exact absurd ⟨h1.symm, h2.symm⟩ hkp)

/-- A sale record never touches the reference tables or derived indexes. -/
theorem saleEffect_frames (r : Record) (s : Store) :
    (saleEffect r s).categories = s.categories ∧
    (saleEffect r s).products = s.products ∧
    (saleEffect r s).contacts = s.contacts ∧
    (saleEffect r s).category_index = s.category_index ∧
    (saleEffect r s).product_category_map = s.product_category_map ∧
    (saleEffect r s).contact_country_map = s.contact_country_map ∧
    (saleEffect r s).country_code_map = s.country_code_map := by
  unfold saleEffect
  by_cases hq : saleQualifies r <;> simp [hq]
  by_cases hcu : truthy (saleCustomerId r) <;>
    cases hcat : saleCatId s.product_category_map r with
    | none => simp [hcu]
    | some cid => by_cases ht : truthy cid <;> simp [hcu, ht]

/-- Per-record exception of the category transform: a `KeyError` on a
missing `id` or `name` key. -/
def catStepErr (r : Record) : Option PyErr :=
  match recGet r "id" with
  | none => some (.keyError "id")
  | some _ =>
    match recGet r "name" with
    | none => some (.keyError "name")
    | some _ => none

/-- Derived category index entry of a category record (needs `name`). -/
def catEntryOf (r : Record) : Option CategoryIndexEntry :=
  (recGet r "name").map (fun nm =>
    ⟨nm, if recGet r "parent_id" = some (.bool true) then some "No Parent" else none⟩)

/-- The category transform raises exactly `catStepErr`. -/
theorem process_category_snd (r : Record) (s : Store) :
    (CategoryLoadStrategy._process_category r s).2 = catStepErr r := by
  unfold CategoryLoadStrategy._process_category catStepErr
  cases h1 : recGet r "id" <;> simp
  cases h2 : recGet r "name" <;> simp

/-- Field-by-field effect of one non-raising category record: the two
written tables gain the keyed entry, everything else is untouched. -/
theorem process_category_fields (r : Record) (s : Store)
    (h : catStepErr r = none) :
    (∀ k, (CategoryLoadStrategy._process_category r s).1.categories k =
        oalt (if recGet r "id" = some k then some r else none) (s.categories k)) ∧
    (∀ k, (CategoryLoadStrategy._process_category r s).1.category_index k =
        oalt (if recGet r "id" = some k then catEntryOf r else none)
          (s.category_index k)) ∧
    (CategoryLoadStrategy._process_category r s).1.products = s.products ∧
    (CategoryLoadStrategy._process_category r s).1.contacts = s.contacts ∧
    (CategoryLoadStrategy._process_category r s).1.product_category_map =
      s.product_category_map ∧
    (CategoryLoadStrategy._process_category r s).1.category_sales = s.category_sales ∧
    (CategoryLoadStrategy._process_category r s).1.category_product_sales =
      s.category_product_sales ∧
    (CategoryLoadStrategy._process_category r s).1.country_product_sales =
      s.country_product_sales ∧
    (CategoryLoadStrategy._process_category r s).1.client_products =
      s.client_products ∧
    (CategoryLoadStrategy._process_category r s).1.contact_country_map =
      s.contact_country_map ∧
    (CategoryLoadStrategy._process_category r s).1.country_code_map =
      s.country_code_map := by
  unfold catStepErr at h
  unfold CategoryLoadStrategy._process_category
  cases h1 : recGet r "id" with
  | none => rw [h1] at h; simp at h
  | some cid =>
    rw [h1] at h
    cases h2 : recGet r "name" with
    | none => rw [h2] at h; simp at h
    | some nm =>
      simp only [h1, h2]
      refine ⟨?_, ?_, by trivial, by trivial, by trivial, by trivial, by trivial, by trivial, by trivial, by trivial, by trivial⟩
      · intro k
        by_cases hk : cid = k
        · subst hk
          simp [upd, oalt]
        · have : ¬ ((some cid : Option JValue) = some k) := by
            intro hh
            exact hk (Option.some.inj hh)
          simp [upd, oalt, this, hk]
          intro hk2
          exact absurd hk2.symm hk
      · intro k
        by_cases hk : cid = k
        · subst hk
          simp [upd, oalt, catEntryOf, h2]
        · have : ¬ ((some cid : Option JValue) = some k) := by
            intro hh
            exact hk (Option.some.inj hh)
          simp [upd, oalt, this, hk]
          intro hk2
          exact absurd hk2.symm hk

/-- Per-record exception of the product transform: a `KeyError` on a
missing `id` key. -/
def prodStepErr (r : Record) : Option PyErr :=
  match recGet r "id" with
  | none => some (.keyError "id")
  | some _ => none

/-- Derived product to category entry of a product record: present exactly
when `categ_id` is list-shaped. -/
def prodCatEntryOf (r : Record) : Option ProductCategoryEntry :=
  match recGet r "categ_id" with
  | some (.list xs) => some ⟨xs.get? 0, (xs.get? 1).getD (.str "Unnamed Category")⟩
  | _ => none

/-- The product transform raises exactly `prodStepErr`. -/
theorem process_product_snd (r : Record) (s : Store) :
    (ProductLoadStrategy._process_product r s).2 = prodStepErr r := by
  unfold ProductLoadStrategy._process_product prodStepErr
  cases h1 : recGet r "id" <;> simp
  cases h2 : recGet r "categ_id" with
  | none => simp
  | some v => cases v <;> simp

/-- The product per-record transform equals its mirror. -/
theorem process_product_eq (r : Record) (s : Store) :
    ProductLoadStrategy._process_product r s =
      match recGet r "id" with
      | none => (s, some (.keyError "id"))
      | some pid =>
        (match prodCatEntryOf r with
          | some e =>
            { s with
                products := upd s.products pid r
                product_category_map := upd s.product_category_map pid e }
          | none => { s with products := upd s.products pid r },
          none) := by
  unfold ProductLoadStrategy._process_product prodCatEntryOf
  cases h1 : recGet r "id" <;> simp
  cases h2 : recGet r "categ_id" with
  | none => simp
  | some v => cases v <;> simp

/-- Field-by-field effect of one non-raising product record. -/
theorem process_product_fields (r : Record) (s : Store)
    (h : prodStepErr r = none) :
    (∀ k, (ProductLoadStrategy._process_product r s).1.products k =
        oalt (if recGet r "id" = some k then some r else none) (s.products k)) ∧
    (∀ k, (ProductLoadStrategy._process_product r s).1.product_category_map k =
        oalt (if recGet r "id" = some k then prodCatEntryOf r else none)
          (s.product_category_map k)) ∧
    (ProductLoadStrategy._process_product r s).1.categories = s.categories ∧
    (ProductLoadStrategy._process_product r s).1.contacts = s.contacts ∧
    (ProductLoadStrategy._process_product r s).1.category_index = s.category_index ∧
    (ProductLoadStrategy._process_product r s).1.category_sales = s.category_sales ∧
    (ProductLoadStrategy._process_product r s).1.category_product_sales =
      s.category_product_sales ∧
    (ProductLoadStrategy._process_product r s).1.country_product_sales =
      s.country_product_sales ∧
    (ProductLoadStrategy._process_product r s).1.client_products =
      s.client_products ∧
    (ProductLoadStrategy._process_product r s).1.contact_country_map =
      s.contact_country_map ∧
    (ProductLoadStrategy._process_product r s).1.country_code_map =
      s.country_code_map := by
  unfold prodStepErr at h
  rw [process_product_eq]
  cases h1 : recGet r "id" with
  | none => rw [h1] at h; simp at h
  | some pid =>
    cases h2 : prodCatEntryOf r with
    | none =>
      refine ⟨?_, ?_, by trivial, by trivial, by trivial, by trivial, by trivial,
        by trivial, by trivial, by trivial, by trivial⟩
      · intro k
        by_cases hk : pid = k
        · subst hk
          simp [upd, oalt]
        · have hne : ¬ ((some pid : Option JValue) = some k) := by
            intro hh
            exact hk (Option.some.inj hh)
          simp [upd, oalt, hne, hk]
          intro hk2
          exact absurd hk2.symm hk
      · intro k
        by_cases hk : pid = k
        · subst hk
          simp [upd, oalt, h2]
        · have hne : ¬ ((some pid : Option JValue) = some k) := by
            intro hh
            exact hk (Option.some.inj hh)
          simp [upd, oalt, hne, hk]
    | some e =>
      refine ⟨?_, ?_, by trivial, by trivial, by trivial, by trivial, by trivial,
        by trivial, by trivial, by trivial, by trivial⟩
      · intro k
        by_cases hk : pid = k
        · subst hk
          simp [upd, oalt]
        · have hne : ¬ ((some pid : Option JValue) = some k) := by
            intro hh
            exact hk (Option.some.inj hh)
          simp [upd, oalt, hne, hk]
          intro hk2
          exact absurd hk2.symm hk
      · intro k
        by_cases hk : pid = k
        · subst hk
          simp [upd, oalt, h2]
        · have hne : ¬ ((some pid : Option JValue) = some k) := by
            intro hh
            exact hk (Option.some.inj hh)
          simp [upd, oalt, hne, hk]
          intro hk2
          exact absurd hk2.symm hk

/-- Per-record exception of the contact transform: a `KeyError` on a
missing `id` key. -/
def contStepErr (r : Record) : Option PyErr :=
  match recGet r "id" with
  | none => some (.keyError "id")
  | some _ => none

/-- The (code, name) pair a contact record carries when its `country_id`
is a list of at least two elements. -/
def countryPairOf (r : Record) : Option (JValue × JValue) :=
  match recGet r "country_id" with
  | some (.list (c :: nm :: _)) => some (c, nm)
  | _ => none

/-- Derived contact to country entry of a contact record. -/
def ccmEntryOf (r : Record) : Option CountryEntry :=
  (countryPairOf r).map (fun p => ⟨p.1, p.2⟩)

/-- Alternative with an empty fallback. -/
theorem oalt_none_right {V : Type} (a : Option V) : oalt a none = a := by
  cases a <;> rfl

/-- The contact per-record transform equals its mirror. -/
theorem process_contact_eq (r : Record) (s : Store) :
    ContactLoadStrategy._process_contact r s =
      match recGet r "id" with
      | none => (s, some (.keyError "id"))
      | some cid =>
        (match countryPairOf r with
          | some (c, nm) =>
            let s2 : Store := { s with
              contacts := upd s.contacts cid r
              contact_country_map := upd s.contact_country_map cid ⟨c, nm⟩ }
            match s.country_code_map nm with
            | some _ => s2
            | none => { s2 with country_code_map := upd s2.country_code_map nm c }
          | none => { s with contacts := upd s.contacts cid r },
          none) := by
  unfold ContactLoadStrategy._process_contact countryPairOf
  cases h1 : recGet r "id" with
  | none => rfl
  | some cid =>
    dsimp only
    cases h2 : recGet r "country_id" with
    | none => rfl
    | some v =>
      cases v with
      | null => rfl
      | bool b => rfl
      | num q => rfl
      | str t => rfl
      | obj fs => rfl
      | list xs =>
        cases xs with
        | nil => rfl
        | cons c rest =>
          cases rest with
          | nil => rfl
          | cons nm rest2 =>
            dsimp only
            cases h3 : s.country_code_map nm <;> rfl

/-- The contact transform raises exactly `contStepErr`. -/
theorem process_contact_snd (r : Record) (s : Store) :
    (ContactLoadStrategy._process_contact r s).2 = contStepErr r := by
  rw [process_contact_eq]
  unfold contStepErr
  cases h1 : recGet r "id" with
  | none => rfl
  | some cid => rfl

/-- Field-by-field effect of one non-raising contact record; the country
code map keeps its stored entries, first-seen code winning. -/
theorem process_contact_fields (r : Record) (s : Store)
    (h : contStepErr r = none) :
    (∀ k, (ContactLoadStrategy._process_contact r s).1.contacts k =
        oalt (if recGet r "id" = some k then some r else none) (s.contacts k)) ∧
    (∀ k, (ContactLoadStrategy._process_contact r s).1.contact_country_map k =
        oalt (if recGet r "id" = some k then ccmEntryOf r else none)
          (s.contact_country_map k)) ∧
    (∀ n, (ContactLoadStrategy._process_contact r s).1.country_code_map n =
        oalt (s.country_code_map n)
          (match countryPairOf r with
            | some p => if p.2 = n then some p.1 else none
            | none => none)) ∧
    (ContactLoadStrategy._process_contact r s).1.categories = s.categories ∧
    (ContactLoadStrategy._process_contact r s).1.products = s.products ∧
    (ContactLoadStrategy._process_contact r s).1.category_index = s.category_index ∧
    (ContactLoadStrategy._process_contact r s).1.product_category_map =
      s.product_category_map ∧
    (ContactLoadStrategy._process_contact r s).1.category_sales = s.category_sales ∧
    (ContactLoadStrategy._process_contact r s).1.category_product_sales =
      s.category_product_sales ∧
    (ContactLoadStrategy._process_contact r s).1.country_product_sales =
      s.country_product_sales ∧
    (ContactLoadStrategy._process_contact r s).1.client_products =
      s.client_products := by
  unfold contStepErr at h
  rw [process_contact_eq]
  cases h1 : recGet r "id" with
  | none => rw [h1] at h; simp at h
  | some cid =>
    dsimp only
    have hup : ∀ k, upd s.contacts cid r k =
        oalt (if (some cid : Option JValue) = some k then some r else none)
          (s.contacts k) := by
      intro k
      by_cases hk : cid = k
      · subst hk
        simp [upd, oalt]
      · have hne : ¬ ((some cid : Option JValue) = some k) := by
          intro hh
          exact hk (Option.some.inj hh)
        simp [upd, oalt, hne, hk]
        intro hk2
        exact absurd hk2.symm hk
    cases h2 : countryPairOf r with
    | none =>
      dsimp only
      refine ⟨hup, ?_, ?_, rfl, rfl, rfl, rfl, rfl, rfl, rfl, rfl⟩
      · intro k
        by_cases hk : cid = k
        · subst hk
          simp [upd, oalt, ccmEntryOf, h2]
        · have hne : ¬ ((some cid : Option JValue) = some k) := by
            intro hh
            exact hk (Option.some.inj hh)
          simp [upd, oalt, hne, hk]
      · intro n
        simp [oalt_none_right]
    | some p =>
      obtain ⟨c, nm⟩ := p
      dsimp only
      cases h3 : s.country_code_map nm with
      | some v =>
        dsimp only
        refine ⟨hup, ?_, ?_, rfl, rfl, rfl, rfl, rfl, rfl, rfl, rfl⟩
        · intro k
          by_cases hk : cid = k
          · subst hk
            simp [upd, oalt, ccmEntryOf, h2]
          · have hne : ¬ ((some cid : Option JValue) = some k) := by
              intro hh
              exact hk (Option.some.inj hh)
            simp [upd, oalt, hne, hk]
            intro hk2
            exact absurd hk2.symm hk
        · intro n
          by_cases hn : nm = n
          · subst hn
            simp [oalt, h3]
          · simp only [oalt]
            cases hsn : s.country_code_map n with
            | some w => simp
            | none => simp [hn]
      | none =>
        dsimp only
        refine ⟨hup, ?_, ?_, rfl, rfl, rfl, rfl, rfl, rfl, rfl, rfl⟩
        · intro k
          by_cases hk : cid = k
          · subst hk
            simp [upd, oalt, ccmEntryOf, h2]
          · have hne : ¬ ((some cid : Option JValue) = some k) := by
              intro hh
              exact hk (Option.some.inj hh)
            simp [upd, oalt, hne, hk]
            intro hk2
            exact absurd hk2.symm hk
        · intro n
          by_cases hn : nm = n
          · subst hn
            simp [oalt, h3, upd]
          · have hne : ¬ (n = nm) := fun hh => hn hh.symm
            simp only [upd, oalt, if_neg hne]
            cases hsn : s.country_code_map n with
            | some w => simp
            | none => simp [hn]

/-- Last category record of a list written under a key. -/
def catLastRec : List Record → JValue → Option Record
  | [], _ => none
  | r :: rest, k =>
    oalt (catLastRec rest k) (if recGet r "id" = some k then some r else none)

/-- Last derived category index entry of a list written under a key. -/
def catLastIdx : List Record → JValue → Option CategoryIndexEntry
  | [], _ => none
  | r :: rest, k =>
    oalt (catLastIdx rest k) (if recGet r "id" = some k then catEntryOf r else none)

/-- Last product record of a list written under a key. -/
def prodLastRec : List Record → JValue → Option Record
  | [], _ => none
  | r :: rest, k =>
    oalt (prodLastRec rest k) (if recGet r "id" = some k then some r else none)

/-- Last derived product to category entry of a list written under a key. -/
def pcmLast : List Record → JValue → Option ProductCategoryEntry
  | [], _ => none
  | r :: rest, k =>
    oalt (pcmLast rest k) (if recGet r "id" = some k then prodCatEntryOf r else none)

/-- Last contact record of a list written under a key. -/
def contLastRec : List Record → JValue → Option Record
  | [], _ => none
  | r :: rest, k =>
    oalt (contLastRec rest k) (if recGet r "id" = some k then some r else none)

/-- Last derived contact to country entry of a list written under a key. -/
def ccmLast : List Record → JValue → Option CountryEntry
  | [], _ => none
  | r :: rest, k =>
    oalt (ccmLast rest k) (if recGet r "id" = some k then ccmEntryOf r else none)

/-- First country code a list of contact records carries for a name. -/
def ccFirst : List Record → JValue → Option JValue
  | [], _ => none
  | r :: rest, n =>
    match countryPairOf r with
    | some p => if p.2 = n then some p.1 else ccFirst rest n
    | none => ccFirst rest n

/-- Total quantity a list of sale records adds to a CategorySales cell,
given the product to category map in force. -/
def csDelta (pcm : JValue → Option ProductCategoryEntry) :
    List Record → JValue → ℚ
  | [], _ => 0
  | r :: rest, c =>
    (if saleQualifies r = true ∧ saleCatId pcm r = some c ∧ truthy c = true
      then saleQty r else 0) + csDelta pcm rest c

/-- Total quantity a list of sale records adds to a CategoryProductSales
cell. -/
def cpsDelta (pcm : JValue → Option ProductCategoryEntry) :
    List Record → JValue → JValue → ℚ
  | [], _, _ => 0
  | r :: rest, c, p =>
    (if saleQualifies r = true ∧ saleCatId pcm r = some c ∧ truthy c = true ∧
        saleProductId r = p
      then saleQty r else 0) + cpsDelta pcm rest c p

/-- Total quantity a list of sale records adds to a CountryProductSales
cell, given the contact to country map in force. -/
def copsDelta (ccm : JValue → Option CountryEntry) :
    List Record → JValue → JValue → ℚ
  | [], _, _ => 0
  | r :: rest, n, p =>
    (if saleQualifies r = true ∧ saleCountry ccm r = n ∧ saleProductId r = p
      then saleQty r else 0) + copsDelta ccm rest n p

/-- Whether a list of sale records adds a product to a client's set. -/
def clientAdded : List Record → JValue → JValue → Bool
  | [], _, _ => false
  | r :: rest, k, p =>
    (saleQualifies r && truthy (saleCustomerId r) &&
      decide (saleCustomerId r = k) && decide (saleProductId r = p)) ||
      clientAdded rest k p

/-- A non-raising sales stage adds exactly the delta totals to the four
aggregates and touches nothing else. -/
theorem runSales_char (recs : List Record) (s : Store)
    (h : (runSales recs s).2 = none) :
    (∀ c, (runSales recs s).1.category_sales c =
        s.category_sales c + csDelta s.product_category_map recs c) ∧
    (∀ c p, (runSales recs s).1.category_product_sales c p =
        s.category_product_sales c p + cpsDelta s.product_category_map recs c p) ∧
    (∀ n p, (runSales recs s).1.country_product_sales n p =
        s.country_product_sales n p + copsDelta s.contact_country_map recs n p) ∧
    (∀ k p, (runSales recs s).1.client_products k p =
        (s.client_products k p || clientAdded recs k p)) ∧
    (runSales recs s).1.categories = s.categories ∧
    (runSales recs s).1.products = s.products ∧
    (runSales recs s).1.contacts = s.contacts ∧
    (runSales recs s).1.category_index = s.category_index ∧
    (runSales recs s).1.product_category_map = s.product_category_map ∧
    (runSales recs s).1.contact_country_map = s.contact_country_map ∧
    (runSales recs s).1.country_code_map = s.country_code_map := by
  induction recs generalizing s with
  | nil =>
    refine ⟨?_, ?_, ?_, ?_, rfl, rfl, rfl, rfl, rfl, rfl, rfl⟩ <;>
      intros <;> simp [runSales, csDelta, cpsDelta, copsDelta, clientAdded]
  | cons r rest ih =>
    have heq := process_sale_eq r s
    cases herr : saleStepErr r with
    | some e =>
      exfalso
      rw [herr] at heq
      simp only [runSales, heq] at h
      exact Option.noConfusion h
    | none =>
      rw [herr] at heq
      have hrun : runSales (r :: rest) s = runSales rest (saleEffect r s) := by
        simp only [runSales, heq]
      rw [hrun] at h
      have ihh := ih (saleEffect r s) h
      obtain ⟨f1, f2, f3, f4, f5, f6, f7⟩ := saleEffect_frames r s
      rw [hrun]
      refine ⟨?_, ?_, ?_, ?_, ?_, ?_, ?_, ?_, ?_, ?_, ?_⟩
      · intro c
        rw [ihh.1 c, f5, saleEffect_category_sales, csDelta]
        ring
      · intro c p
        rw [ihh.2.1 c p, f5, saleEffect_category_product_sales, cpsDelta]
        ring
      · intro n p
        rw [ihh.2.2.1 n p, f6, saleEffect_country_product_sales, copsDelta]
        ring
      · intro k p
        rw [ihh.2.2.2.1 k p, saleEffect_client_products, clientAdded]
        cases hb : s.client_products k p <;> simp [Bool.or_assoc]
      · rw [ihh.2.2.2.2.1, f1]
      · rw [ihh.2.2.2.2.2.1, f2]
      · rw [ihh.2.2.2.2.2.2.1, f3]
      · rw [ihh.2.2.2.2.2.2.2.1, f4]
      · rw [ihh.2.2.2.2.2.2.2.2.1, f5]
      · rw [ihh.2.2.2.2.2.2.2.2.2.1, f6]
      · rw [ihh.2.2.2.2.2.2.2.2.2.2, f7]

/-- A non-raising category stage overwrites the two category tables with
last-write-wins entries and touches nothing else. -/
theorem catRun_char (recs : List Record) (s : Store)
    (h : (runRecords CategoryLoadStrategy._process_category recs s).2 = none) :
    (∀ k, (runRecords CategoryLoadStrategy._process_category recs s).1.categories k =
        oalt (catLastRec recs k) (s.categories k)) ∧
    (∀ k, (runRecords CategoryLoadStrategy._process_category recs s).1.category_index k =
        oalt (catLastIdx recs k) (s.category_index k)) ∧
    (runRecords CategoryLoadStrategy._process_category recs s).1.products = s.products ∧
    (runRecords CategoryLoadStrategy._process_category recs s).1.contacts = s.contacts ∧
    (runRecords CategoryLoadStrategy._process_category recs s).1.product_category_map =
      s.product_category_map ∧
    (runRecords CategoryLoadStrategy._process_category recs s).1.category_sales =
      s.category_sales ∧
    (runRecords CategoryLoadStrategy._process_category recs s).1.category_product_sales =
      s.category_product_sales ∧
    (runRecords CategoryLoadStrategy._process_category recs s).1.country_product_sales =
      s.country_product_sales ∧
    (runRecords CategoryLoadStrategy._process_category recs s).1.client_products =
      s.client_products ∧
    (runRecords CategoryLoadStrategy._process_category recs s).1.contact_country_map =
      s.contact_country_map ∧
    (runRecords CategoryLoadStrategy._process_category recs s).1.country_code_map =
      s.country_code_map := by
  induction recs generalizing s with
  | nil =>
    refine ⟨?_, ?_, rfl, rfl, rfl, rfl, rfl, rfl, rfl, rfl, rfl⟩ <;>
      intro k <;> simp [runRecords, catLastRec, catLastIdx, oalt]
  | cons r rest ih =>
    have hsnd := process_category_snd r s
    cases hstep : CategoryLoadStrategy._process_category r s with
    | mk s1 err =>
      rw [hstep] at hsnd
      simp only at hsnd
      cases herr : catStepErr r with
      | some e =>
        exfalso
        rw [herr] at hsnd
        subst hsnd
        simp only [runRecords, hstep] at h
        exact Option.noConfusion h
      | none =>
        rw [herr] at hsnd
        subst hsnd
        simp only [runRecords, hstep] at h ⊢
        have hf := process_category_fields r s herr
        rw [hstep] at hf
        simp only at hf
        obtain ⟨hc, hi, g1, g2, g3, g4, g5, g6, g7, g8, g9⟩ := hf
        have ihh := ih s1 h
        refine ⟨?_, ?_, ?_, ?_, ?_, ?_, ?_, ?_, ?_, ?_, ?_⟩
        · intro k
          rw [ihh.1 k, hc k, catLastRec, oalt_assoc]
        · intro k
          rw [ihh.2.1 k, hi k, catLastIdx, oalt_assoc]
        · rw [ihh.2.2.1, g1]
        · rw [ihh.2.2.2.1, g2]
        · rw [ihh.2.2.2.2.1, g3]
        · rw [ihh.2.2.2.2.2.1, g4]
        · rw [ihh.2.2.2.2.2.2.1, g5]
        · rw [ihh.2.2.2.2.2.2.2.1, g6]
        · rw [ihh.2.2.2.2.2.2.2.2.1, g7]
        · rw [ihh.2.2.2.2.2.2.2.2.2.1, g8]
        · rw [ihh.2.2.2.2.2.2.2.2.2.2, g9]

/-- A non-raising product stage overwrites the two product tables with
last-write-wins entries and touches nothing else. -/
theorem prodRun_char (recs : List Record) (s : Store)
    (h : (runRecords ProductLoadStrategy._process_product recs s).2 = none) :
    (∀ k, (runRecords ProductLoadStrategy._process_product recs s).1.products k =
        oalt (prodLastRec recs k) (s.products k)) ∧
    (∀ k, (runRecords ProductLoadStrategy._process_product recs s).1.product_category_map k =
        oalt (pcmLast recs k) (s.product_category_map k)) ∧
    (runRecords ProductLoadStrategy._process_product recs s).1.categories = s.categories ∧
    (runRecords ProductLoadStrategy._process_product recs s).1.contacts = s.contacts ∧
    (runRecords ProductLoadStrategy._process_product recs s).1.category_index =
      s.category_index ∧
    (runRecords ProductLoadStrategy._process_product recs s).1.category_sales =
      s.category_sales ∧
    (runRecords ProductLoadStrategy._process_product recs s).1.category_product_sales =
      s.category_product_sales ∧
    (runRecords ProductLoadStrategy._process_product recs s).1.country_product_sales =
      s.country_product_sales ∧
    (runRecords ProductLoadStrategy._process_product recs s).1.client_products =
      s.client_products ∧
    (runRecords ProductLoadStrategy._process_product recs s).1.contact_country_map =
      s.contact_country_map ∧
    (runRecords ProductLoadStrategy._process_product recs s).1.country_code_map =
      s.country_code_map := by
  induction recs generalizing s with
  | nil =>
    refine ⟨?_, ?_, rfl, rfl, rfl, rfl, rfl, rfl, rfl, rfl, rfl⟩ <;>
      intro k <;> simp [runRecords, prodLastRec, pcmLast, oalt]
  | cons r rest ih =>
    have hsnd := process_product_snd r s
    cases hstep : ProductLoadStrategy._process_product r s with
    | mk s1 err =>
      rw [hstep] at hsnd
      simp only at hsnd
      cases herr : prodStepErr r with
      | some e =>
        exfalso
        rw [herr] at hsnd
        subst hsnd
        simp only [runRecords, hstep] at h
        exact Option.noConfusion h
      | none =>
        rw [herr] at hsnd
        subst hsnd
        simp only [runRecords, hstep] at h ⊢
        have hf := process_product_fields r s herr
        rw [hstep] at hf
        simp only at hf
        obtain ⟨hc, hi, g1, g2, g3, g4, g5, g6, g7, g8, g9⟩ := hf
        have ihh := ih s1 h
        refine ⟨?_, ?_, ?_, ?_, ?_, ?_, ?_, ?_, ?_, ?_, ?_⟩
        · intro k
          rw [ihh.1 k, hc k, prodLastRec, oalt_assoc]
        · intro k
          rw [ihh.2.1 k, hi k, pcmLast, oalt_assoc]
        · rw [ihh.2.2.1, g1]
        · rw [ihh.2.2.2.1, g2]
        · rw [ihh.2.2.2.2.1, g3]
        · rw [ihh.2.2.2.2.2.1, g4]
        · rw [ihh.2.2.2.2.2.2.1, g5]
        · rw [ihh.2.2.2.2.2.2.2.1, g6]
        · rw [ihh.2.2.2.2.2.2.2.2.1, g7]
        · rw [ihh.2.2.2.2.2.2.2.2.2.1, g8]
        · rw [ihh.2.2.2.2.2.2.2.2.2.2, g9]

/-- Cons unfolding of `ccFirst` in alternative form. -/
theorem ccFirst_cons_eq (r : Record) (rest : List Record) (n : JValue) :
    ccFirst (r :: rest) n =
      oalt (match countryPairOf r with
        | some p => if p.2 = n then some p.1 else none
        | none => none) (ccFirst rest n) := by
  cases h2 : countryPairOf r with
  | none => simp [ccFirst, h2, oalt]
  | some p =>
    by_cases hn : p.2 = n
    · simp [ccFirst, h2, hn, oalt]
    · simp [ccFirst, h2, hn, oalt]

/-- A non-raising contact stage overwrites the two contact tables with
last-write-wins entries, extends the country code map first-seen-wins,
and touches nothing else. -/
theorem contRun_char (recs : List Record) (s : Store)
    (h : (runRecords ContactLoadStrategy._process_contact recs s).2 = none) :
    (∀ k, (runRecords ContactLoadStrategy._process_contact recs s).1.contacts k =
        oalt (contLastRec recs k) (s.contacts k)) ∧
    (∀ k, (runRecords ContactLoadStrategy._process_contact recs s).1.contact_country_map k =
        oalt (ccmLast recs k) (s.contact_country_map k)) ∧
    (∀ n, (runRecords ContactLoadStrategy._process_contact recs s).1.country_code_map n =
        oalt (s.country_code_map n) (ccFirst recs n)) ∧
    (runRecords ContactLoadStrategy._process_contact recs s).1.categories = s.categories ∧
    (runRecords ContactLoadStrategy._process_contact recs s).1.products = s.products ∧
    (runRecords ContactLoadStrategy._process_contact recs s).1.category_index =
      s.category_index ∧
    (runRecords ContactLoadStrategy._process_contact recs s).1.product_category_map =
      s.product_category_map ∧
    (runRecords ContactLoadStrategy._process_contact recs s).1.category_sales =
      s.category_sales ∧
    (runRecords ContactLoadStrategy._process_contact recs s).1.category_product_sales =
      s.category_product_sales ∧
    (runRecords ContactLoadStrategy._process_contact recs s).1.country_product_sales =
      s.country_product_sales ∧
    (runRecords ContactLoadStrategy._process_contact recs s).1.client_products =
      s.client_products := by
  induction recs generalizing s with
  | nil =>
    refine ⟨?_, ?_, fun n => (oalt_none_right _).symm, rfl, rfl, rfl, rfl, rfl,
      rfl, rfl, rfl⟩ <;>
      intro k <;> simp [runRecords, contLastRec, ccmLast, oalt]
  | cons r rest ih =>
    have hsnd := process_contact_snd r s
    cases hstep : ContactLoadStrategy._process_contact r s with
    | mk s1 err =>
      rw [hstep] at hsnd
      simp only at hsnd
      cases herr : contStepErr r with
      | some e =>
        exfalso
        rw [herr] at hsnd
        subst hsnd
        simp only [runRecords, hstep] at h
        exact Option.noConfusion h
      | none =>
        rw [herr] at hsnd
        subst hsnd
        simp only [runRecords, hstep] at h ⊢
        have hf := process_contact_fields r s herr
        rw [hstep] at hf
        simp only at hf
        obtain ⟨hc, hm, hw, g1, g2, g3, g4, g5, g6, g7, g8⟩ := hf
        have ihh := ih s1 h
        refine ⟨?_, ?_, ?_, ?_, ?_, ?_, ?_, ?_, ?_, ?_, ?_⟩
        · intro k
          rw [ihh.1 k, hc k, contLastRec, oalt_assoc]
        · intro k
          rw [ihh.2.1 k, hm k, ccmLast, oalt_assoc]
        · intro n
          rw [ihh.2.2.1 n, hw n, ccFirst_cons_eq, oalt_assoc]
        · rw [ihh.2.2.2.1, g1]
        · rw [ihh.2.2.2.2.1, g2]
        · rw [ihh.2.2.2.2.2.1, g3]
        · rw [ihh.2.2.2.2.2.2.1, g4]
        · rw [ihh.2.2.2.2.2.2.2.1, g5]
        · rw [ihh.2.2.2.2.2.2.2.2.1, g6]
        · rw [ihh.2.2.2.2.2.2.2.2.2.1, g7]
        · rw [ihh.2.2.2.2.2.2.2.2.2.2, g8]

/-- A successful category stage load means the stream was readable and the
record run raised nothing. -/
theorem load_success_cat (file : FileStream) (s a : Store)
    (h : CategoryLoadStrategy.load file s = (a, none)) :
    ∃ recs, file = .ok recs ∧
      runRecords CategoryLoadStrategy._process_category recs s = (a, none) := by
  cases file with
  | error e => simp [CategoryLoadStrategy.load] at h
  | ok recs =>
    refine ⟨recs, rfl, ?_⟩
    unfold CategoryLoadStrategy.load at h
    dsimp only at h
    cases hr : runRecords CategoryLoadStrategy._process_category recs s with
    | mk a2 e2 =>
      rw [hr] at h
      cases e2 with
      | some e => simp at h
      | none => simp at h; rw [h]

/-- A successful product stage load means the stream was readable and the
record run raised nothing. -/
theorem load_success_prod (file : FileStream) (s a : Store)
    (h : ProductLoadStrategy.load file s = (a, none)) :
    ∃ recs, file = .ok recs ∧
      runRecords ProductLoadStrategy._process_product recs s = (a, none) := by
  cases file with
  | error e => simp [ProductLoadStrategy.load] at h
  | ok recs =>
    refine ⟨recs, rfl, ?_⟩
    unfold ProductLoadStrategy.load at h
    dsimp only at h
    cases hr : runRecords ProductLoadStrategy._process_product recs s with
    | mk a2 e2 =>
      rw [hr] at h
      cases e2 with
      | some e => simp at h
      | none => simp at h; rw [h]

/-- A successful contact stage load means the stream was readable and the
record run raised nothing. -/
theorem load_success_cont (file : FileStream) (s a : Store)
    (h : ContactLoadStrategy.load file s = (a, none)) :
    ∃ recs, file = .ok recs ∧
      runRecords ContactLoadStrategy._process_contact recs s = (a, none) := by
  cases file with
  | error e => simp [ContactLoadStrategy.load] at h
  | ok recs =>
    refine ⟨recs, rfl, ?_⟩
    unfold ContactLoadStrategy.load at h
    dsimp only at h
    cases hr : runRecords ContactLoadStrategy._process_contact recs s with
    | mk a2 e2 =>
      rw [hr] at h
      cases e2 with
      | some e => simp at h
      | none => simp at h; rw [h]

/-- A successful sales stage load means the stream was readable and the
record run raised nothing. -/
theorem load_success_sales (file : FileStream) (s a : Store)
    (h : SalesLoadStrategy.load file s = (a, none)) :
    ∃ recs, file = .ok recs ∧ runSales recs s = (a, none) := by
  cases file with
  | error e => simp [SalesLoadStrategy.load] at h
  | ok recs =>
    refine ⟨recs, rfl, ?_⟩
    unfold SalesLoadStrategy.load at h
    dsimp only at h
    cases hr : runSales recs s with
    | mk a2 e2 =>
      rw [hr] at h
      cases e2 with
      | some e => simp at h
      | none => simp at h; rw [h]

/-- A successful initialization decomposes into four successful stage
loads chained in the fixed order. -/
theorem initialize_success_decomp (files : Files) (s sfin : Store)
    (h : DataLoader.initialize_data files s = (sfin, none)) :
    ∃ a b c, CategoryLoadStrategy.load files.categories s = (a, none) ∧
      ProductLoadStrategy.load files.products a = (b, none) ∧
      ContactLoadStrategy.load files.contacts b = (c, none) ∧
      SalesLoadStrategy.load files.sales c = (sfin, none) := by
  unfold DataLoader.initialize_data at h
  cases hA : CategoryLoadStrategy.load files.categories s with
  | mk a ea =>
    rw [hA] at h
    cases ea with
    | some e => simp at h
    | none =>
      dsimp only at h
      cases hB : ProductLoadStrategy.load files.products a with
      | mk b eb =>
        rw [hB] at h
        cases eb with
        | some e => simp at h
        | none =>
          dsimp only at h
          cases hC : ContactLoadStrategy.load files.contacts b with
          | mk c ec =>
            rw [hC] at h
            cases ec with
            | some e => simp at h
            | none =>
              dsimp only at h
              cases hD : SalesLoadStrategy.load files.sales c with
              | mk d ed =>
                rw [hD] at h
                cases ed with
                | some e => simp at h
                | none =>
                  dsimp only at h
                  simp at h
                  subst h
                  exact ⟨a, b, c, rfl, hB, hC, hD⟩


theorem passes2024_no_raise (r : Record)
    (h : passes2024 (pyGet r "create_date" (.str "")) = true) :
    saleStepErr r = none := by
  unfold saleStepErr
  unfold passes2024 at h
  cases hcd : pyGet r "create_date" (.str "") <;> rw [hcd] at h <;> simp_all

/-- C5 counterexample: the one-element list is not the two-element pair
form, yet extract_id returns its first element rather than None. -/
theorem C5_counterexample :
    extract_id (JValue.list [JValue.num 5]) = JValue.num 5 ∧
    isPairForm (JValue.list [JValue.num 5]) = false ∧
    JValue.num 5 ≠ JValue.null := by
  refine ⟨rfl, rfl, ?_⟩
  decide

/-- C5 (amended): extract_id returns the first element of any non-empty
list argument (the pair form included), and returns None (null) for every
other shape — missing, scalar, empty list, object — never raising. -/
theorem C5_first_of_nonempty (v : JValue) :
    (∀ x xs, v = JValue.list (x :: xs) → extract_id v = x) ∧
    ((∀ x xs, v ≠ JValue.list (x :: xs)) → extract_id v = JValue.null) := by
  constructor
  · rintro x xs rfl
    rfl
  · intro h
    cases v with
    | list xs =>
      cases xs with
      | nil => rfl
      | cons x rest => exact absurd rfl (h x rest)
    | null => rfl
    | bool b => rfl
    | num q => rfl
    | str s => rfl
    | obj fs => rfl

/-- Witness for C5: the amended theorem evaluated on the pair form. -/
theorem C5_first_of_nonempty_witness :
    extract_id (JValue.list [JValue.num 7, JValue.str "a"]) = JValue.num 7 :=
  (C5_first_of_nonempty (JValue.list [JValue.num 7, JValue.str "a"])).1
    (JValue.num 7) [JValue.str "a"] rfl

/-- C6 counterexample: the string "nan" is coercible, and the source
returns max(nan, 0.0), which is NaN under Python max semantics — a result
that is neither non-negative nor the caller-supplied default, refuting
the claim that the result is always non-negative. -/
theorem C6_counterexample :
    validate_numeric_float (JValue.str "nan") (PyFloatVal.finite 0)
      = PyFloatVal.nan ∧
    PyFloatVal.isNonNegative PyFloatVal.nan = false ∧
    PyFloatVal.nan ≠ PyFloatVal.finite 0 := by
  refine ⟨by decide, rfl, by decide⟩

/-- C6 (amended): validate_numeric never raises; a coercible value yields
max(coerced, 0.0) under Python max semantics — so the result is
non-negative whenever the coerced value is not NaN (negative and -inf
inputs clamp to 0), while a NaN value propagates as NaN — and a
non-coercible value yields the caller-supplied default. -/
theorem C6_validate_numeric_full (v : JValue) (d : PyFloatVal) :
    (∀ f, pyFloat v = some f →
      validate_numeric_float v d = pyMax f (PyFloatVal.finite 0) ∧
      (f ≠ PyFloatVal.nan →
        (validate_numeric_float v d).isNonNegative = true) ∧
      (f = PyFloatVal.nan → validate_numeric_float v d = PyFloatVal.nan)) ∧
    (pyFloat v = none → validate_numeric_float v d = d) := by
  unfold validate_numeric_float
  cases h : pyFloat v with
  | some f =>
    refine ⟨?_, fun hx => Option.noConfusion hx⟩
    intro f2 hf2
    injection hf2 with hf2
    subst hf2
    refine ⟨rfl, ?_, ?_⟩
    · intro hne
      dsimp only
      cases f with
      | finite q =>
        unfold pyMax PyFloatVal.gt
        by_cases hq : q < 0
        · simp [hq, PyFloatVal.isNonNegative]
        · simp [hq, PyFloatVal.isNonNegative]
          exact le_of_not_lt hq
      | inf n1 =>
        cases n1 <;> simp [pyMax, PyFloatVal.gt, PyFloatVal.isNonNegative]
      | nan => exact absurd rfl hne
    · intro hnan
      subst hnan
      rfl
  | none => exact ⟨fun f2 hf2 => Option.noConfusion hf2, fun _ => rfl⟩

/-- Witness for C6: the string "  -3.5_0e1  " — whitespace, sign,
underscore and exponent included — coerces to -35 and clamps to 0, a
non-negative result; a null value yields the default. -/
theorem C6_validate_numeric_full_witness :
    (validate_numeric_float (JValue.str "  -3.5_0e1  ") (PyFloatVal.finite 9)
        = pyMax (PyFloatVal.finite (-35)) (PyFloatVal.finite 0) ∧
      (validate_numeric_float (JValue.str "  -3.5_0e1  ")
          (PyFloatVal.finite 9)).isNonNegative = true) ∧
    validate_numeric_float JValue.null (PyFloatVal.finite 9)
      = PyFloatVal.finite 9 := by
  have hf : pyFloat (JValue.str "  -3.5_0e1  ")
      = some (PyFloatVal.finite (-35)) := by
    have hstrip : stripWs "  -3.5_0e1  ".data
        = ['-', '3', '.', '5', '_', '0', 'e', '1'] := by decide
    have hsp : List.splitOn '.' ['3', '.', '5', '_', '0'] = [['3'], ['5', '_', '0']] := by
      decide
    have h1 : digitPart ['3'] = some (3, 1) := by decide
    have h2 : digitPart ['5', '_', '0'] = some (50, 2) := by decide
    have h3 : digitPart ['1'] = some (1, 1) := by decide
    simp [pyFloat, pyStrToFloat, hstrip, pyFloatBody, numericBody, mantissaVal,
      expVal, hsp, h1, h2, h3, PyFloatVal.neg]
    norm_num
  have hmain := (C6_validate_numeric_full (JValue.str "  -3.5_0e1  ")
    (PyFloatVal.finite 9)).1 (PyFloatVal.finite (-35)) hf
  exact ⟨⟨hmain.1, hmain.2.1 (by decide)⟩,
    (C6_validate_numeric_full JValue.null (PyFloatVal.finite 9)).2 rfl⟩

/-- C3: a sale record whose create_date (defaulted to the empty string) is
not a string starting with "2024" leaves the whole store unchanged —
whatever its other fields hold, and also when the non-string value makes
the transform raise before any update. -/
theorem C3_period_filter_skips (sale : Record) (dl : Store)
    (h : passes2024 (pyGet sale "create_date" (.str "")) = false) :
    (SalesLoadStrategy._process_sale sale dl).1 = dl := by
  have heq := process_sale_eq sale dl
  cases herr : saleStepErr sale with
  | some e =>
    rw [herr] at heq
    rw [heq]
  | none =>
    rw [herr] at heq
    rw [heq]
    have hq : saleQualifies sale = false := by
      simp [saleQualifies, h]
    unfold saleEffect
    rw [hq]
    simp

/-- Witness for C3: a 2023 sale with a resolvable product changes nothing
in the empty store. -/
theorem C3_period_filter_skips_witness :
    (SalesLoadStrategy._process_sale
        [("create_date", JValue.str "2023-07-01"),
          ("product_id", JValue.list [JValue.num 10, JValue.str "Cola"]),
          ("product_uom_qty", JValue.num 4)] emptyStore).1 = emptyStore :=
  C3_period_filter_skips _ emptyStore (by decide)

/-- C4: for a category record with id and name present, the derived index
entry's parent is the literal "No Parent" exactly when the raw parent_id
field is the boolean true, and is absent (None) for every other parent_id
value, absent included. -/
theorem C4_parent_sentinel (category : Record) (dl : Store) (cid : JValue)
    (hid : recGet category "id" = some cid)
    (hname : (recGet category "name").isSome = true) :
    ∃ e, (CategoryLoadStrategy._process_category category dl).1.category_index cid
        = some e ∧
      (e.parent = some "No Parent" ↔
        recGet category "parent_id" = some (JValue.bool true)) ∧
      (recGet category "parent_id" ≠ some (JValue.bool true) → e.parent = none) := by
  obtain ⟨nm, hnm⟩ := Option.isSome_iff_exists.mp hname
  have herr : catStepErr category = none := by
    unfold catStepErr
    rw [hid, hnm]
  obtain ⟨hc, hi, hrest⟩ := process_category_fields category dl herr
  refine ⟨⟨nm, if recGet category "parent_id" = some (JValue.bool true)
      then some "No Parent" else none⟩, ?_, ?_, ?_⟩
  · rw [hi cid, hid]
    simp [oalt, catEntryOf, hnm]
  · by_cases hp : recGet category "parent_id" = some (JValue.bool true) <;>
      simp [hp]
  · intro hp
    simp [hp]

/-- Witness for C4: a record with parent_id true derives "No Parent", and
one with parent_id absent derives an absent parent. -/
theorem C4_parent_sentinel_witness :
    (∃ e, (CategoryLoadStrategy._process_category
        [("id", JValue.num 1), ("name", JValue.str "Drinks"),
          ("parent_id", JValue.bool true)] emptyStore).1.category_index (JValue.num 1)
        = some e ∧
      (e.parent = some "No Parent" ↔
        recGet [("id", JValue.num 1), ("name", JValue.str "Drinks"),
          ("parent_id", JValue.bool true)] "parent_id" = some (JValue.bool true)) ∧
      (recGet [("id", JValue.num 1), ("name", JValue.str "Drinks"),
          ("parent_id", JValue.bool true)] "parent_id" ≠ some (JValue.bool true) →
        e.parent = none)) ∧
    (∃ e, (CategoryLoadStrategy._process_category
        [("id", JValue.num 2), ("name", JValue.str "Food"),
          ("parent_id", JValue.bool false)] emptyStore).1.category_index (JValue.num 2)
        = some e ∧
      (e.parent = some "No Parent" ↔
        recGet [("id", JValue.num 2), ("name", JValue.str "Food"),
          ("parent_id", JValue.bool false)] "parent_id" = some (JValue.bool true)) ∧
      (recGet [("id", JValue.num 2), ("name", JValue.str "Food"),
          ("parent_id", JValue.bool false)] "parent_id" ≠ some (JValue.bool true) →
        e.parent = none)) :=
  ⟨C4_parent_sentinel _ emptyStore (JValue.num 1) (by decide) (by decide),
    C4_parent_sentinel _ emptyStore (JValue.num 2) (by decide) (by decide)⟩

/-- C2: a sale record that passes the period filter and extracts a truthy
product id adds exactly validate_numeric of its quantity field to
CountryProductSales at the resolved country name and product id — whether
or not the category resolves, and whatever the customer resolution did —
leaves every other cell of that aggregate unchanged, and counts as
processed. -/
theorem C2_country_update_unconditional (sale : Record) (dl : Store)
    (hdate : passes2024 (pyGet sale "create_date" (JValue.str "")) = true)
    (hpid : truthy (saleProductId sale) = true) :
    (SalesLoadStrategy._process_sale sale dl).1.country_product_sales
        (saleCountry dl.contact_country_map sale) (saleProductId sale) =
      dl.country_product_sales (saleCountry dl.contact_country_map sale)
          (saleProductId sale)
        + validate_numeric (pyGet sale "product_uom_qty" (JValue.num 0)) 0 ∧
    (∀ n p,
      ¬ (n = saleCountry dl.contact_country_map sale ∧ p = saleProductId sale) →
      (SalesLoadStrategy._process_sale sale dl).1.country_product_sales n p =
        dl.country_product_sales n p) ∧
    (SalesLoadStrategy._process_sale sale dl).2 = Except.ok true := by
  have hq : saleQualifies sale = true := by
    simp [saleQualifies, hdate, hpid]
  have heq := process_sale_eq sale dl
  rw [passes2024_no_raise sale hdate] at heq
  have h1 : (SalesLoadStrategy._process_sale sale dl).1 = saleEffect sale dl := by
    rw [heq]
  refine ⟨?_, ?_, ?_⟩
  · rw [h1, saleEffect_country_product_sales]
    simp [hq, saleQty]
  · intro n p hnp
    rw [h1, saleEffect_country_product_sales]
    have hcond : ¬ (saleQualifies sale = true ∧
        saleCountry dl.contact_country_map sale = n ∧ saleProductId sale = p) := by
      rintro ⟨_, hn, hp⟩
      exact hnp ⟨hn.symm, hp.symm⟩
    rw [if_neg hcond]
    ring
  · rw [heq]
    simp [hq]

/-- Witness for C2: a 2024 sale of product 10, quantity 3, with no
contacts loaded, adds 3 under the "Unknown" country in the empty store. -/
theorem C2_country_update_unconditional_witness :
    (SalesLoadStrategy._process_sale
          [("create_date", JValue.str "2024-01-01"),
            ("product_id", JValue.list [JValue.num 10, JValue.str "Cola"]),
            ("product_uom_qty", JValue.num 3)] emptyStore).1.country_product_sales
        (saleCountry emptyStore.contact_country_map
          [("create_date", JValue.str "2024-01-01"),
            ("product_id", JValue.list [JValue.num 10, JValue.str "Cola"]),
            ("product_uom_qty", JValue.num 3)])
        (saleProductId
          [("create_date", JValue.str "2024-01-01"),
            ("product_id", JValue.list [JValue.num 10, JValue.str "Cola"]),
            ("product_uom_qty", JValue.num 3)]) =
      emptyStore.country_product_sales
          (saleCountry emptyStore.contact_country_map
            [("create_date", JValue.str "2024-01-01"),
              ("product_id", JValue.list [JValue.num 10, JValue.str "Cola"]),
              ("product_uom_qty", JValue.num 3)])
          (saleProductId
            [("create_date", JValue.str "2024-01-01"),
              ("product_id", JValue.list [JValue.num 10, JValue.str "Cola"]),
              ("product_uom_qty", JValue.num 3)])
        + validate_numeric
            (pyGet [("create_date", JValue.str "2024-01-01"),
              ("product_id", JValue.list [JValue.num 10, JValue.str "Cola"]),
              ("product_uom_qty", JValue.num 3)] "product_uom_qty" (JValue.num 0)) 0 :=
  (C2_country_update_unconditional _ emptyStore (by decide) (by decide)).1

/-- C7: the country code map is first-seen-wins over any sequence of
contact records: a stored code for a country name survives processing any
further contacts — conflicting codes are only logged — and no entry is
ever removed. -/
theorem C7_first_seen_wins (contacts : List Record) (dl : Store) (n c : JValue)
    (h : dl.country_code_map n = some c) :
    (runRecords ContactLoadStrategy._process_contact contacts dl).1.country_code_map n
      = some c := by
  induction contacts generalizing dl with
  | nil => exact h
  | cons r rest ih =>
    have hstep : ∀ s : Store, s.country_code_map n = some c →
        ((ContactLoadStrategy._process_contact r s).1).country_code_map n = some c := by
      intro s hs
      rw [process_contact_eq]
      cases h1 : recGet r "id" with
      | none => exact hs
      | some cid =>
        dsimp only
        cases h2 : countryPairOf r with
        | none => exact hs
        | some p =>
          obtain ⟨cc, nm⟩ := p
          dsimp only
          cases h3 : s.country_code_map nm with
          | some v => exact hs
          | none =>
            dsimp only
            unfold upd
            by_cases hn : n = nm
            · rw [hn] at hs
              rw [hs] at h3
              exact Option.noConfusion h3
            · simp [hn, hs]
    cases hp : ContactLoadStrategy._process_contact r dl with
    | mk s1 e1 =>
      have hs1 : s1.country_code_map n = some c := by
        have hh := hstep dl h
        rw [hp] at hh
        exact hh
      cases e1 with
      | none =>
        simp only [runRecords, hp]
        exact ih s1 hs1
      | some e =>
        simp only [runRecords, hp]
        exact hs1

/-- Witness for C7: with France stored under code 2, a later contact
carrying France under code 33 leaves the stored code 2 in place. -/
theorem C7_first_seen_wins_witness :
    (runRecords ContactLoadStrategy._process_contact
        [[("id", JValue.num 9),
          ("country_id", JValue.list [JValue.num 33, JValue.str "France"])]]
        { emptyStore with
          country_code_map :=
            upd emptyStore.country_code_map (JValue.str "France") (JValue.num 2) }
      ).1.country_code_map (JValue.str "France") = some (JValue.num 2) :=
  C7_first_seen_wins _ _ _ _ (by decide)

/-- C8: initialize_data runs the stages in the fixed order categories,
products, contacts, sales; the first stage error is re-raised as the
overall result, later stages (and their files) are never touched, and the
run succeeds exactly when all four stages succeed in sequence — there is
no partial-success outcome. -/
theorem C8_fail_fast_order (files : Files) (dl : Store) :
    (∀ dl1 e, CategoryLoadStrategy.load files.categories dl = (dl1, some e) →
      ∀ fp fc fs,
        DataLoader.initialize_data ⟨files.categories, fp, fc, fs⟩ dl = (dl1, some e)) ∧
    (∀ dl1 dl2 e, CategoryLoadStrategy.load files.categories dl = (dl1, none) →
      ProductLoadStrategy.load files.products dl1 = (dl2, some e) →
      ∀ fc fs,
        DataLoader.initialize_data ⟨files.categories, files.products, fc, fs⟩ dl
          = (dl2, some e)) ∧
    (∀ dl1 dl2 dl3 e, CategoryLoadStrategy.load files.categories dl = (dl1, none) →
      ProductLoadStrategy.load files.products dl1 = (dl2, none) →
      ContactLoadStrategy.load files.contacts dl2 = (dl3, some e) →
      ∀ fs,
        DataLoader.initialize_data ⟨files.categories, files.products, files.contacts, fs⟩ dl
          = (dl3, some e)) ∧
    (∀ dl1 dl2 dl3 dl4 e, CategoryLoadStrategy.load files.categories dl = (dl1, none) →
      ProductLoadStrategy.load files.products dl1 = (dl2, none) →
      ContactLoadStrategy.load files.contacts dl2 = (dl3, none) →
      SalesLoadStrategy.load files.sales dl3 = (dl4, some e) →
      DataLoader.initialize_data files dl = (dl4, some e)) ∧
    (∀ dl1 dl2 dl3 dl4, CategoryLoadStrategy.load files.categories dl = (dl1, none) →
      ProductLoadStrategy.load files.products dl1 = (dl2, none) →
      ContactLoadStrategy.load files.contacts dl2 = (dl3, none) →
      SalesLoadStrategy.load files.sales dl3 = (dl4, none) →
      DataLoader.initialize_data files dl = (dl4, none)) := by
  refine ⟨?_, ?_, ?_, ?_, ?_⟩
  · intro dl1 e h fp fc fs
    unfold DataLoader.initialize_data
    dsimp only
    rw [h]
  · intro dl1 dl2 e h1 h2 fc fs
    unfold DataLoader.initialize_data
    dsimp only
    rw [h1]
    dsimp only
    rw [h2]
  · intro dl1 dl2 dl3 e h1 h2 h3 fs
    unfold DataLoader.initialize_data
    dsimp only
    rw [h1]
    dsimp only
    rw [h2]
    dsimp only
    rw [h3]
  · intro dl1 dl2 dl3 dl4 e h1 h2 h3 h4
    unfold DataLoader.initialize_data
    rw [h1]
    dsimp only
    rw [h2]
    dsimp only
    rw [h3]
    dsimp only
    rw [h4]
  · intro dl1 dl2 dl3 dl4 h1 h2 h3 h4
    unfold DataLoader.initialize_data
    rw [h1]
    dsimp only
    rw [h2]
    dsimp only
    rw [h3]
    dsimp only
    rw [h4]

/-- Witness for C8: an unreadable categories file fails the whole
initialization with the wrapped category stage error, whatever the other
three files hold. -/
theorem C8_fail_fast_order_witness :
    DataLoader.initialize_data
        ⟨Except.error StreamErr.ioError, Except.ok [], Except.ok [], Except.ok []⟩
        emptyStore
      = (emptyStore,
          some (Exc.wrapped
            ⟨"Category loading failed", Cause.stream StreamErr.ioError, 500⟩)) :=
  (C8_fail_fast_order
      ⟨Except.error StreamErr.ioError, Except.ok [], Except.ok [], Except.ok []⟩
      emptyStore).1 emptyStore
    (Exc.wrapped ⟨"Category loading failed", Cause.stream StreamErr.ioError, 500⟩)
    rfl (Except.ok []) (Except.ok []) (Except.ok [])

/-- Wrapped-or-raw discriminator on stage exceptions. -/
def Exc.isWrapped : Exc → Bool
  | .wrapped _ => true
  | .raw _ => false

/-- C9 counterexample: a sale record whose create_date is the number 5
raises AttributeError inside the per-record transform, and the stage
reports it wrapped in the typed DataLoaderException — not as the raw
per-record exception the claim says propagates unwrapped. -/
theorem C9_counterexample :
    (SalesLoadStrategy.load (Except.ok [[("create_date", JValue.num 5)]])
        emptyStore).2
      = some (Exc.wrapped
          ⟨"Sales processing error", Cause.record PyErr.attributeError, 500⟩) ∧
    (SalesLoadStrategy.load (Except.ok [[("create_date", JValue.num 5)]])
        emptyStore).2
      ≠ some (Exc.raw PyErr.attributeError) := by
  constructor
  · decide
  · decide

/-- C9 (amended): every load strategy catches every exception raised in
its stage body — per-record transform exceptions as well as stream-level
failures — and wraps it into the typed DataLoaderException; no exception
leaves a stage unwrapped. -/
theorem C9_all_wrapped :
    (∀ (file : FileStream) (dl : Store) (e : Exc),
      (CategoryLoadStrategy.load file dl).2 = some e → e.isWrapped = true) ∧
    (∀ (file : FileStream) (dl : Store) (e : Exc),
      (ProductLoadStrategy.load file dl).2 = some e → e.isWrapped = true) ∧
    (∀ (file : FileStream) (dl : Store) (e : Exc),
      (ContactLoadStrategy.load file dl).2 = some e → e.isWrapped = true) ∧
    (∀ (file : FileStream) (dl : Store) (e : Exc),
      (SalesLoadStrategy.load file dl).2 = some e → e.isWrapped = true) := by
  refine ⟨?_, ?_, ?_, ?_⟩
  · intro file dl e h
    cases file with
    | error ef =>
      unfold CategoryLoadStrategy.load at h
      injection h with h
      rw [← h]
      rfl
    | ok recs =>
      unfold CategoryLoadStrategy.load at h
      dsimp only at h
      cases hr : runRecords CategoryLoadStrategy._process_category recs dl with
      | mk s1 e1 =>
        rw [hr] at h
        cases e1 with
        | none => exact Option.noConfusion h
        | some pe =>
          injection h with h
          rw [← h]
          rfl
  · intro file dl e h
    cases file with
    | error ef =>
      unfold ProductLoadStrategy.load at h
      injection h with h
      rw [← h]
      rfl
    | ok recs =>
      unfold ProductLoadStrategy.load at h
      dsimp only at h
      cases hr : runRecords ProductLoadStrategy._process_product recs dl with
      | mk s1 e1 =>
        rw [hr] at h
        cases e1 with
        | none => exact Option.noConfusion h
        | some pe =>
          injection h with h
          rw [← h]
          rfl
  · intro file dl e h
    cases file with
    | error ef =>
      unfold ContactLoadStrategy.load at h
      injection h with h
      rw [← h]
      rfl
    | ok recs =>
      unfold ContactLoadStrategy.load at h
      dsimp only at h
      cases hr : runRecords ContactLoadStrategy._process_contact recs dl with
      | mk s1 e1 =>
        rw [hr] at h
        cases e1 with
        | none => exact Option.noConfusion h
        | some pe =>
          injection h with h
          rw [← h]
          rfl
  · intro file dl e h
    cases file with
    | error ef =>
      unfold SalesLoadStrategy.load at h
      injection h with h
      rw [← h]
      rfl
    | ok recs =>
      unfold SalesLoadStrategy.load at h
      dsimp only at h
      cases hr : runSales recs dl with
      | mk s1 e1 =>
        rw [hr] at h
        cases e1 with
        | none => exact Option.noConfusion h
        | some pe =>
          injection h with h
          rw [← h]
          rfl

/-- Witness for C9: the wrapped error reported for the raising sale
record is indeed of the wrapped kind. -/
theorem C9_all_wrapped_witness :
    Exc.isWrapped (Exc.wrapped
        ⟨"Sales processing error", Cause.record PyErr.attributeError, 500⟩) = true :=
  C9_all_wrapped.2.2.2 (Except.ok [[("create_date", JValue.num 5)]]) emptyStore
    (Exc.wrapped ⟨"Sales processing error", Cause.record PyErr.attributeError, 500⟩)
    (by decide)

/-- C10: sale id presence is truthiness, not mere presence. A sale whose
product_id is the pair with first element 0 is skipped wholesale (store
untouched, reported unprocessed); a sale with a truthy product id whose
order_partner_id is the pair with first element 0 gains no ClientProducts
entry, while the country aggregate — and the category aggregate when the
category id resolves truthy — still take the quantity. -/
theorem C10_truthiness_id_absence :
    (∀ (sale : Record) (dl : Store) (nm : JValue),
      passes2024 (pyGet sale "create_date" (JValue.str "")) = true →
      pyGet sale "product_id" JValue.null = JValue.list [JValue.num 0, nm] →
      SalesLoadStrategy._process_sale sale dl = (dl, Except.ok false)) ∧
    (∀ (sale : Record) (dl : Store) (nm : JValue),
      passes2024 (pyGet sale "create_date" (JValue.str "")) = true →
      truthy (saleProductId sale) = true →
      pyGet sale "order_partner_id" JValue.null = JValue.list [JValue.num 0, nm] →
      (SalesLoadStrategy._process_sale sale dl).1.client_products =
          dl.client_products ∧
      (SalesLoadStrategy._process_sale sale dl).1.country_product_sales
          (saleCountry dl.contact_country_map sale) (saleProductId sale) =
        dl.country_product_sales (saleCountry dl.contact_country_map sale)
            (saleProductId sale) + saleQty sale ∧
      (∀ cid, saleCatId dl.product_category_map sale = some cid →
        truthy cid = true →
        (SalesLoadStrategy._process_sale sale dl).1.category_sales cid =
          dl.category_sales cid + saleQty sale)) := by
  constructor
  · intro sale dl nm hdate hpid
    have hq : saleQualifies sale = false := by
      unfold saleQualifies saleProductId
      rw [hpid]
      simp [extract_id, truthy]
    have heq := process_sale_eq sale dl
    rw [passes2024_no_raise sale hdate] at heq
    rw [heq]
    unfold saleEffect
    rw [hq]
    simp
  · intro sale dl nm hdate hpid hcust
    have hcu : truthy (saleCustomerId sale) = false := by
      unfold saleCustomerId
      rw [hcust]
      simp [extract_id, truthy]
    have hq : saleQualifies sale = true := by
      simp [saleQualifies, hdate, hpid]
    have heq := process_sale_eq sale dl
    rw [passes2024_no_raise sale hdate] at heq
    have h1 : (SalesLoadStrategy._process_sale sale dl).1 = saleEffect sale dl := by
      rw [heq]
    refine ⟨?_, ?_, ?_⟩
    · funext k p
      rw [h1, saleEffect_client_products]
      rw [hcu]
      simp
    · rw [h1, saleEffect_country_product_sales]
      simp [hq]
    · intro cid hcid htr
      rw [h1, saleEffect_category_sales]
      simp [hq, hcid, htr]

/-- Witness for C10: a 2024 sale with product pair id 0 leaves the empty
store untouched and unprocessed; a 2024 sale of product 10 with customer
pair id 0 adds no client entry yet books 3 under "Unknown". -/
theorem C10_truthiness_id_absence_witness :
    (SalesLoadStrategy._process_sale
        [("create_date", JValue.str "2024-02-02"),
          ("product_id", JValue.list [JValue.num 0, JValue.str "X"])] emptyStore
      = (emptyStore, Except.ok false)) ∧
    ((SalesLoadStrategy._process_sale
        [("create_date", JValue.str "2024-02-02"),
          ("product_id", JValue.list [JValue.num 10, JValue.str "Cola"]),
          ("order_partner_id", JValue.list [JValue.num 0, JValue.str "Bob"]),
          ("product_uom_qty", JValue.num 3)] emptyStore).1.client_products =
      emptyStore.client_products) :=
  ⟨C10_truthiness_id_absence.1 _ emptyStore (JValue.str "X") (by decide) (by decide),
    (C10_truthiness_id_absence.2 _ emptyStore (JValue.str "Bob") (by decide)
        (by decide) (by decide)).1⟩

/-- Concrete input files exercising a double run of the loader: one
product mapped to category 1 and one qualifying 2024 sale of quantity 3. -/
def exFiles : Files where
  categories := Except.ok []
  products := Except.ok
    [[("id", JValue.num 10), ("categ_id", JValue.list [JValue.num 1, JValue.str "Drinks"])]]
  contacts := Except.ok []
  sales := Except.ok
    [[("create_date", JValue.str "2024-01-01"),
      ("product_id", JValue.list [JValue.num 10, JValue.str "Cola"]),
      ("product_uom_qty", JValue.num 3)]]

/-- C1 counterexample: on fixed unchanged input files with one qualifying
sale of quantity 3, both consecutive runs of initialize_data succeed, the
first leaves 3 under ("Unknown", product 10) in CountryProductSales, the
second leaves 6 — the store after two runs is not equal to the store after
one run, because initialize_data never resets the aggregates. -/
theorem C1_counterexample :
    (DataLoader.initialize_data exFiles emptyStore).2 = none ∧
    (DataLoader.initialize_data exFiles
        (DataLoader.initialize_data exFiles emptyStore).1).2 = none ∧
    (DataLoader.initialize_data exFiles emptyStore).1.country_product_sales
        (JValue.str "Unknown") (JValue.num 10) = 3 ∧
    (DataLoader.initialize_data exFiles
        (DataLoader.initialize_data exFiles emptyStore).1).1.country_product_sales
        (JValue.str "Unknown") (JValue.num 10) = 6 ∧
    (DataLoader.initialize_data exFiles
        (DataLoader.initialize_data exFiles emptyStore).1).1
      ≠ (DataLoader.initialize_data exFiles emptyStore).1 := by
  have hv3 : validate_numeric (JValue.num 3) 0 = 3 := by
    simp [validate_numeric, validate_numeric_float, pyFloat, pyMax, PyFloatVal.gt]
    norm_num
  have h3 : (DataLoader.initialize_data exFiles emptyStore).1.country_product_sales
      (JValue.str "Unknown") (JValue.num 10) = 3 := by
    simp [DataLoader.initialize_data, CategoryLoadStrategy.load,
      ProductLoadStrategy.load, ContactLoadStrategy.load, SalesLoadStrategy.load,
      runRecords, runSales, exFiles, ProductLoadStrategy._process_product,
      SalesLoadStrategy._process_sale, recGet, pyGet, extract_id, truthy,
      hv3, upd, bump, bump2, addMem, strStartsWith,
      List.isPrefixOf, emptyStore]
  have h6 : (DataLoader.initialize_data exFiles
      (DataLoader.initialize_data exFiles emptyStore).1).1.country_product_sales
      (JValue.str "Unknown") (JValue.num 10) = 6 := by
    simp [DataLoader.initialize_data, CategoryLoadStrategy.load,
      ProductLoadStrategy.load, ContactLoadStrategy.load, SalesLoadStrategy.load,
      runRecords, runSales, exFiles, ProductLoadStrategy._process_product,
      SalesLoadStrategy._process_sale, recGet, pyGet, extract_id, truthy,
      hv3, upd, bump, bump2, addMem, strStartsWith,
      List.isPrefixOf, emptyStore]
    norm_num
  refine ⟨by decide, by decide, h3, h6, ?_⟩
  intro hc
  have hx := congrArg
    (fun st : Store =>
      st.country_product_sales (JValue.str "Unknown") (JValue.num 10)) hc
  simp only at hx
  rw [h3, h6] at hx
  exact absurd hx (by norm_num)

/-- C1 (amended): initialize_data does not rebuild the store from scratch.
When two consecutive runs on the same store both succeed, the second run
leaves every reference table, derived index and client set exactly as the
first run left them, but it adds the whole sales quantity delta a second
time: each numeric aggregate cell grows by the same increment in the
second run as in the first. The store after two runs therefore equals the
store after one run only when that sales delta is zero everywhere —
starting from the empty store, a run from scratch, each sales aggregate
doubles instead. -/
theorem C1_initialize_rerun (files : Files) (s0 s1 s2 : Store)
    (h1 : DataLoader.initialize_data files s0 = (s1, none))
    (h2 : DataLoader.initialize_data files s1 = (s2, none)) :
    s2.categories = s1.categories ∧
    s2.category_index = s1.category_index ∧
    s2.products = s1.products ∧
    s2.product_category_map = s1.product_category_map ∧
    s2.contacts = s1.contacts ∧
    s2.contact_country_map = s1.contact_country_map ∧
    s2.country_code_map = s1.country_code_map ∧
    s2.client_products = s1.client_products ∧
    (∀ c, s2.category_sales c - s1.category_sales c =
        s1.category_sales c - s0.category_sales c) ∧
    (∀ c p, s2.category_product_sales c p - s1.category_product_sales c p =
        s1.category_product_sales c p - s0.category_product_sales c p) ∧
    (∀ n p, s2.country_product_sales n p - s1.country_product_sales n p =
        s1.country_product_sales n p - s0.country_product_sales n p) := by
  obtain ⟨a1, b1, c1, hA1, hB1, hC1, hD1⟩ := initialize_success_decomp files s0 s1 h1
  obtain ⟨a2, b2, c2, hA2, hB2, hC2, hD2⟩ := initialize_success_decomp files s1 s2 h2
  obtain ⟨recsC, hfC, hrA1⟩ := load_success_cat _ _ _ hA1
  obtain ⟨recsP, hfP, hrB1⟩ := load_success_prod _ _ _ hB1
  obtain ⟨recsT, hfT, hrC1⟩ := load_success_cont _ _ _ hC1
  obtain ⟨recsS, hfS, hrD1⟩ := load_success_sales _ _ _ hD1
  obtain ⟨recsC2, hfC2, hrA2⟩ := load_success_cat _ _ _ hA2
  obtain ⟨recsP2, hfP2, hrB2⟩ := load_success_prod _ _ _ hB2
  obtain ⟨recsT2, hfT2, hrC2⟩ := load_success_cont _ _ _ hC2
  obtain ⟨recsS2, hfS2, hrD2⟩ := load_success_sales _ _ _ hD2
  rw [hfC] at hfC2
  rw [hfP] at hfP2
  rw [hfT] at hfT2
  rw [hfS] at hfS2
  injection hfC2 with hCeq
  injection hfP2 with hPeq
  injection hfT2 with hTeq
  injection hfS2 with hSeq
  subst hCeq
  subst hPeq
  subst hTeq
  subst hSeq
  have chA1 := catRun_char recsC s0 (by rw [hrA1])
  simp only [hrA1] at chA1
  obtain ⟨A1c, A1i, A1p, A1t, A1m, A1s, A1q, A1o, A1l, A1cc, A1w⟩ := chA1
  have chB1 := prodRun_char recsP a1 (by rw [hrB1])
  simp only [hrB1] at chB1
  obtain ⟨B1p, B1m, B1c, B1t, B1i, B1s, B1q, B1o, B1l, B1cc, B1w⟩ := chB1
  have chC1 := contRun_char recsT b1 (by rw [hrC1])
  simp only [hrC1] at chC1
  obtain ⟨C1t, C1cc, C1w, C1c, C1p, C1i, C1m, C1s, C1q, C1o, C1l⟩ := chC1
  have chD1 := runSales_char recsS c1 (by rw [hrD1])
  simp only [hrD1] at chD1
  obtain ⟨D1s, D1q, D1o, D1l, D1c, D1p, D1t, D1i, D1m, D1cc, D1w⟩ := chD1
  have chA2 := catRun_char recsC s1 (by rw [hrA2])
  simp only [hrA2] at chA2
  obtain ⟨A2c, A2i, A2p, A2t, A2m, A2s, A2q, A2o, A2l, A2cc, A2w⟩ := chA2
  have chB2 := prodRun_char recsP a2 (by rw [hrB2])
  simp only [hrB2] at chB2
  obtain ⟨B2p, B2m, B2c, B2t, B2i, B2s, B2q, B2o, B2l, B2cc, B2w⟩ := chB2
  have chC2 := contRun_char recsT b2 (by rw [hrC2])
  simp only [hrC2] at chC2
  obtain ⟨C2t, C2cc, C2w, C2c, C2p, C2i, C2m, C2s, C2q, C2o, C2l⟩ := chC2
  have chD2 := runSales_char recsS c2 (by rw [hrD2])
  simp only [hrD2] at chD2
  obtain ⟨D2s, D2q, D2o, D2l, D2c, D2p, D2t, D2i, D2m, D2cc, D2w⟩ := chD2
  have s1c : ∀ k, s1.categories k = oalt (catLastRec recsC k) (s0.categories k) := by
    intro k
    rw [D1c, C1c, B1c, A1c k]
  have s1i : ∀ k, s1.category_index k =
      oalt (catLastIdx recsC k) (s0.category_index k) := by
    intro k
    rw [D1i, C1i, B1i, A1i k]
  have s1p : ∀ k, s1.products k = oalt (prodLastRec recsP k) (s0.products k) := by
    intro k
    rw [D1p, C1p, B1p k, A1p]
  have s1m : ∀ k, s1.product_category_map k =
      oalt (pcmLast recsP k) (s0.product_category_map k) := by
    intro k
    rw [D1m, C1m, B1m k, A1m]
  have s1t : ∀ k, s1.contacts k = oalt (contLastRec recsT k) (s0.contacts k) := by
    intro k
    rw [D1t, C1t k, B1t, A1t]
  have s1cc : ∀ k, s1.contact_country_map k =
      oalt (ccmLast recsT k) (s0.contact_country_map k) := by
    intro k
    rw [D1cc, C1cc k, B1cc, A1cc]
  have s1w : ∀ n, s1.country_code_map n =
      oalt (s0.country_code_map n) (ccFirst recsT n) := by
    intro n
    rw [D1w, C1w n, B1w, A1w]
  have s1l : ∀ k p, s1.client_products k p =
      (s0.client_products k p || clientAdded recsS k p) := by
    intro k p
    rw [D1l k p, C1l, B1l, A1l]
  have c2m_eq : c2.product_category_map = c1.product_category_map := by
    funext k
    rw [C2m, B2m k, A2m, s1m k, oalt_self_absorb, ← s1m k, D1m]
  have c2cc_eq : c2.contact_country_map = c1.contact_country_map := by
    funext k
    rw [C2cc k, B2cc, A2cc, s1cc k, oalt_self_absorb, ← s1cc k, D1cc]
  have c1s_eq : c1.category_sales = s0.category_sales := by
    rw [C1s, B1s, A1s]
  have c2s_eq : c2.category_sales = s1.category_sales := by
    rw [C2s, B2s, A2s]
  have c1q_eq : c1.category_product_sales = s0.category_product_sales := by
    rw [C1q, B1q, A1q]
  have c2q_eq : c2.category_product_sales = s1.category_product_sales := by
    rw [C2q, B2q, A2q]
  have c1o_eq : c1.country_product_sales = s0.country_product_sales := by
    rw [C1o, B1o, A1o]
  have c2o_eq : c2.country_product_sales = s1.country_product_sales := by
    rw [C2o, B2o, A2o]
  refine ⟨?_, ?_, ?_, ?_, ?_, ?_, ?_, ?_, ?_, ?_, ?_⟩
  · funext k
    rw [D2c, C2c, B2c, A2c k, s1c k, oalt_self_absorb, ← s1c k]
  · funext k
    rw [D2i, C2i, B2i, A2i k, s1i k, oalt_self_absorb, ← s1i k]
  · funext k
    rw [D2p, C2p, B2p k, A2p, s1p k, oalt_self_absorb, ← s1p k]
  · rw [D2m, c2m_eq, D1m]
  · funext k
    rw [D2t, C2t k, B2t, A2t, s1t k, oalt_self_absorb, ← s1t k]
  · rw [D2cc, c2cc_eq, D1cc]
  · funext n
    rw [D2w, C2w n, B2w, A2w, s1w n, oalt_absorb, ← s1w n]
  · funext k
    funext p
    rw [D2l k p, C2l, B2l, A2l, s1l k p, Bool.or_assoc, Bool.or_self, ← s1l k p]
  · intro c
    rw [D2s c, c2s_eq, c2m_eq, D1s c, c1s_eq]
    ring
  · intro c p
    rw [D2q c p, c2q_eq, c2m_eq, D1q c p, c1q_eq]
    ring
  · intro n p
    rw [D2o n p, c2o_eq, c2cc_eq, D1o n p, c1o_eq]
    ring

/-- Witness for C1: on the concrete files, the second run adds the same
increment (3) to the "Unknown" country cell of product 10 as the first
run did. -/
theorem C1_initialize_rerun_witness :
    (DataLoader.initialize_data exFiles
        (DataLoader.initialize_data exFiles emptyStore).1).1.country_product_sales
          (JValue.str "Unknown") (JValue.num 10)
      - (DataLoader.initialize_data exFiles emptyStore).1.country_product_sales
          (JValue.str "Unknown") (JValue.num 10)
    = (DataLoader.initialize_data exFiles emptyStore).1.country_product_sales
          (JValue.str "Unknown") (JValue.num 10)
      - emptyStore.country_product_sales (JValue.str "Unknown") (JValue.num 10) := by
  have h1 : DataLoader.initialize_data exFiles emptyStore
      = ((DataLoader.initialize_data exFiles emptyStore).1, none) :=
    Prod.ext rfl (by decide)
  have h2 : DataLoader.initialize_data exFiles
        (DataLoader.initialize_data exFiles emptyStore).1
      = ((DataLoader.initialize_data exFiles
          (DataLoader.initialize_data exFiles emptyStore).1).1, none) :=
    Prod.ext rfl (by decide)
  exact (C1_initialize_rerun exFiles emptyStore _ _ h1
      h2).2.2.2.2.2.2.2.2.2.2 (JValue.str "Unknown") (JValue.num 10)
